import Mathlib

/-! # Drape batcher: index strategies and the bucket insert loop

A shallow embedding of `drape/batcher.cpp`.  Every C++ `uint16_t` is a `Nat`
that is reduced modulo `2^16` wherever the C++ code converts an `int` result
back to `uint16_t`.
-/

namespace Drape

/-- Conversion of a C++ `int` value to `uint16_t`. -/
def toUInt16 (n : Int) : Nat := (n % 65536).toNat

/-! ## Index generation strategies (`batcher.cpp`, lines 8-91) -/

/-- The fields of `BaseStrategy`. -/
structure BaseStrategy where
  m_startIndex : Nat
  m_counter : Nat
  deriving DecidableEq

namespace BaseStrategy

/-- The constructor `BaseStrategy()`: both fields start at zero. -/
def init : BaseStrategy := { m_startIndex := 0, m_counter := 0 }

/-- The method `SetStartIndex(uint16_t startIndex)`. -/
def SetStartIndex (s : BaseStrategy) (startIndex : Nat) : BaseStrategy :=
  { s with m_startIndex := startIndex }

/-- The method `GetCounter()`: `return m_counter++;` on a `uint16_t` field. -/
def GetCounter (s : BaseStrategy) : Nat × BaseStrategy :=
  (s.m_counter, { s with m_counter := toUInt16 ((s.m_counter : Int) + 1) })

end BaseStrategy

namespace TrianglesListStrategy

def GetIndexCount (vertexCount : Nat) : Nat := vertexCount

def GetVertexCount (indexCount : Nat) : Nat := indexCount

/-- The call operator: `return m_startIndex + GetCounter();`. -/
def call (s : BaseStrategy) : Nat × BaseStrategy :=
  let r := s.GetCounter
  (toUInt16 ((s.m_startIndex : Int) + (r.1 : Int)), r.2)

end TrianglesListStrategy

namespace TrianglesStripStrategy

/-- The method `GetIndexCount`: `return 3* (vertexCount - 2);`, computed in `int`
and converted to `uint16_t`. -/
def GetIndexCount (vertexCount : Nat) : Nat := toUInt16 (3 * ((vertexCount : Int) - 2))

/-- The method `GetVertexCount`: `return (indexCount / 3) + 2;`. -/
def GetVertexCount (indexCount : Nat) : Nat := toUInt16 ((indexCount : Int) / 3 + 2)

/-- The call operator: `m_startIndex + counter - 2 * (counter / 3)`. -/
def call (s : BaseStrategy) : Nat × BaseStrategy :=
  let r := s.GetCounter
  let counter : Int := (r.1 : Int)
  (toUInt16 ((s.m_startIndex : Int) + counter - 2 * (counter / 3)), r.2)

end TrianglesStripStrategy

namespace TrianglesFanStrategy

def GetIndexCount (vertexCount : Nat) : Nat := toUInt16 (3 * ((vertexCount : Int) - 2))

def GetVertexCount (indexCount : Nat) : Nat := toUInt16 ((indexCount : Int) / 3 + 2)

/-- The call operator: the start index when `counter % 3 == 0`, else the strip
formula. -/
def call (s : BaseStrategy) : Nat × BaseStrategy :=
  let r := s.GetCounter
  let counter : Int := (r.1 : Int)
  if counter % 3 = 0 then (s.m_startIndex, r.2)
  else (toUInt16 ((s.m_startIndex : Int) + counter - 2 * (counter / 3)), r.2)

end TrianglesFanStrategy

/-- The template parameter `strategy` of `Batcher::InsertTriangles`: one of the
three strategy structs. -/
inductive Strategy where
  | TrianglesList
  | TrianglesStrip
  | TrianglesFan
  deriving DecidableEq

namespace Strategy

def GetIndexCount : Strategy → Nat → Nat
  | TrianglesList, v => TrianglesListStrategy.GetIndexCount v
  | TrianglesStrip, v => TrianglesStripStrategy.GetIndexCount v
  | TrianglesFan, v => TrianglesFanStrategy.GetIndexCount v

def GetVertexCount : Strategy → Nat → Nat
  | TrianglesList, i => TrianglesListStrategy.GetVertexCount i
  | TrianglesStrip, i => TrianglesStripStrategy.GetVertexCount i
  | TrianglesFan, i => TrianglesFanStrategy.GetVertexCount i

def call : Strategy → BaseStrategy → Nat × BaseStrategy
  | TrianglesList, s => TrianglesListStrategy.call s
  | TrianglesStrip, s => TrianglesStripStrategy.call s
  | TrianglesFan, s => TrianglesFanStrategy.call s

end Strategy

/-- The effect of `indexes.resize(n); std::generate(indexes.begin(), indexes.end(), s)`:
the generator is taken by value, so a copy of `s` is called `n` times in sequence and
the caller's `s` keeps its counter. -/
def generate (k : Strategy) : Nat → BaseStrategy → List Nat
  | 0, _ => []
  | n + 1, s => (k.call s).1 :: generate k n (k.call s).2

/-- The value a strategy returns at counter value `i` for start index `start`. -/
def indexAt (k : Strategy) (start i : Nat) : Nat :=
  (k.call { m_startIndex := start, m_counter := i }).1

/-! ## Collaborators of the batcher that are declared outside `batcher.cpp` -/

/-- Modelled from the spec: `GLState` (the render state) is declared outside the
source under study; the spec describes it as an orderable key whose content is not inspected, used only
as a map key and as a handle passed to the flush sink. -/
abbrev GLState := Nat

/-- Modelled from the spec: `VertexArrayBuffer` (the bucket) is declared outside the
source under study.  The spec gives it a fixed capacity at creation, an available
vertex count, an available index count and a start-index offset that grows as
vertices are appended.  The record keeps the two capacities and the totals received
so far. -/
structure VertexArrayBuffer where
  vertexCapacity : Nat
  indexCapacity : Nat
  vertexUploaded : Nat
  indexUploaded : Nat
  deriving DecidableEq

namespace VertexArrayBuffer

/-- Modelled from the spec: the constructor call `new VertexArrayBuffer(768, 512)`
creates an empty bucket of 768 vertices and 512 indices. -/
def create (vertexCapacity indexCapacity : Nat) : VertexArrayBuffer :=
  { vertexCapacity := vertexCapacity, indexCapacity := indexCapacity,
    vertexUploaded := 0, indexUploaded := 0 }

/-- Modelled from the spec: the remaining vertex capacity, returned as `uint16_t`. -/
def GetAvailableVertexCount (b : VertexArrayBuffer) : Nat :=
  (b.vertexCapacity - b.vertexUploaded) % 65536

/-- Modelled from the spec: the remaining index capacity, returned as `uint16_t`. -/
def GetAvailableIndexCount (b : VertexArrayBuffer) : Nat :=
  (b.indexCapacity - b.indexUploaded) % 65536

/-- Modelled from the spec: the start-index offset is the number of vertices
appended so far, returned as `uint16_t`. -/
def GetStartIndexValue (b : VertexArrayBuffer) : Nat :=
  b.vertexUploaded % 65536

/-- Modelled from the spec: `UploadIndexes(data, count)` appends `count` indices. -/
def UploadIndexes (b : VertexArrayBuffer) (count : Nat) : VertexArrayBuffer :=
  { b with indexUploaded := b.indexUploaded + count }

/-- Modelled from the spec: the per-stream `UploadData(data, count)` calls of one
iteration append `count` vertices to the bucket (all streams advance together). -/
def UploadData (b : VertexArrayBuffer) (count : Nat) : VertexArrayBuffer :=
  { b with vertexUploaded := b.vertexUploaded + count }

end VertexArrayBuffer

/-- Modelled from the spec: `AttributeProvider` is declared outside the source under
study.  The spec describes an iterator-like source that knows whether data remains,
how many vertices remain in the current chunk, and consumes `n` vertices on
`Advance(n)`. -/
structure AttributeProvider where
  m_vertexCount : Nat
  deriving DecidableEq

namespace AttributeProvider

/-- Modelled from the spec: data remains while vertices are left. -/
def IsDataExists (p : AttributeProvider) : Bool := p.m_vertexCount != 0

/-- Modelled from the spec: the vertices left in the chunk, returned as `uint16_t`. -/
def GetVertexCount (p : AttributeProvider) : Nat := p.m_vertexCount % 65536

/-- Modelled from the spec: `Advance(n)` consumes `n` vertices; consuming more than
the provider holds is not possible (`none`). -/
def Advance (p : AttributeProvider) (vertexCount : Nat) : Option AttributeProvider :=
  if vertexCount ≤ p.m_vertexCount then
    some { m_vertexCount := p.m_vertexCount - vertexCount }
  else none

end AttributeProvider

/-- A call received by the flush sink `IBatchFlush`. -/
inductive FlushCall where
  | FlushFullBucket (state : GLState) (bucket : VertexArrayBuffer)
  | UseIncompleteBucket (state : GLState) (bucket : VertexArrayBuffer)
  deriving DecidableEq

/-! ## The bucket map `buckets_t` (a `std::map` from state to bucket) -/

abbrev buckets_t := List (GLState × VertexArrayBuffer)

namespace buckets_t

/-- The lookup `m_buckets.find(state)`. -/
def find : buckets_t → GLState → Option VertexArrayBuffer
  | [], _ => none
  | (k, v) :: m, state => if k = state then some v else find m state

/-- Stores `bucket` under `state`, keeping the keys in ascending order: a new key is
inserted at its place, the value of an existing key is replaced (a write through the
pointer the map holds). -/
def store : buckets_t → GLState → VertexArrayBuffer → buckets_t
  | [], state, bucket => [(state, bucket)]
  | (k, v) :: m, state, bucket =>
    if state < k then (state, bucket) :: (k, v) :: m
    else if k = state then (state, bucket) :: m
    else (k, v) :: store m state bucket

/-- The removal `m_buckets.erase(state)`. -/
def erase : buckets_t → GLState → buckets_t
  | [], _ => []
  | (k, v) :: m, state => if k = state then erase m state else (k, v) :: erase m state

end buckets_t

/-! ## The batcher (`batcher.cpp`, lines 94-192) -/

/-- The state of a `Batcher`: the bucket map and the calls its flush interface has
received so far, oldest first. -/
structure Batcher where
  m_buckets : buckets_t
  m_flushInterface : List FlushCall
  deriving DecidableEq

/-- How a call into the batcher ended: it returned, or one of the `ASSERT`s failed,
or the provider could not be advanced, or the loop was cut off by the iteration
bound of the embedding. -/
inductive Outcome where
  | returned
  | assertAvailableIndexCount
  | assertAvailableVertexCount
  | advanceBeyondData
  | assertFinalizeBuffer
  | iterationBound
  deriving DecidableEq

/-- What one pass through the loop body of `InsertTriangles` did. -/
structure Iteration where
  strategy : Strategy
  state : GLState
  requestedVertexCount : Nat
  availableVertexCount : Nat
  availableIndexCount : Nat
  needFinalizeBuffer : Bool
  vertexCount : Nat
  indexCount : Nat
  startIndexValue : Nat
  indexes : List Nat
  deriving DecidableEq

/-- The result of running batcher code: the outcome, the batcher state reached and
the loop iterations executed, in order. -/
structure Run where
  outcome : Outcome
  batcher : Batcher
  iterations : List Iteration
  deriving DecidableEq

/-- How one pass through the loop body ends: the run stops, or the loop goes on with
the strategy object, the advanced provider and the batcher as they are now. -/
inductive BodyResult where
  | stop (outcome : Outcome) (b : Batcher) (iterations : List Iteration)
  | next (s : BaseStrategy) (params : AttributeProvider) (b : Batcher) (it : Iteration)
  deriving DecidableEq

/-- The iterations a pass through the loop body executed: the one of the pass, unless
an `ASSERT` stopped it before the upload. -/
def BodyResult.iterations : BodyResult → List Iteration
  | BodyResult.stop _ _ iterations => iterations
  | BodyResult.next _ _ _ it => [it]

/-- The batcher a pass through the loop body leaves behind. -/
def BodyResult.batcher : BodyResult → Batcher
  | BodyResult.stop _ b _ => b
  | BodyResult.next _ _ b _ => b

/-- Lines 121-131 of `InsertTriangles`: decides whether the bucket must be finalized
and clamps the counts.  Returns `(needFinalizeBuffer, vertexCount, indexCount)`. -/
def clampCounts (k : Strategy) (vertexCount availableVertexCount availableIndexCount : Nat) :
    Bool × Nat × Nat :=
  let indexCount := k.GetIndexCount vertexCount
  if vertexCount > availableVertexCount ∨ indexCount > availableIndexCount then
    let vertexCount :=
      if k.GetIndexCount availableVertexCount ≤ availableIndexCount then availableVertexCount
      else k.GetVertexCount availableIndexCount
    (true, vertexCount, k.GetIndexCount vertexCount)
  else
    (false, vertexCount, indexCount)

namespace Batcher

/-- The constructor: no buckets, nothing flushed. -/
def init : Batcher := { m_buckets := [], m_flushInterface := [] }

/-- The method `GetBuffer`: the bucket of `state`, created with capacity 768 / 512
and registered when the state has none. -/
def GetBuffer (b : Batcher) (state : GLState) : VertexArrayBuffer × Batcher :=
  match b.m_buckets.find state with
  | some buffer => (buffer, b)
  | none =>
    let buffer := VertexArrayBuffer.create 768 512
    (buffer, { b with m_buckets := b.m_buckets.store state buffer })

/-- The method `FinalizeBuffer`: `none` when the `ASSERT` fails (no bucket for
`state`), else the bucket goes to `FlushFullBucket` and the state is erased. -/
def FinalizeBuffer (b : Batcher) (state : GLState) : Option Batcher :=
  match b.m_buckets.find state with
  | none => none
  | some buffer =>
    some { m_buckets := b.m_buckets.erase state,
           m_flushInterface := b.m_flushInterface ++ [FlushCall.FlushFullBucket state buffer] }

/-- One pass through the loop body of `InsertTriangles` (lines 111-151), entered
when the provider has data.  `s` is the strategy object of the call; `std::generate`
works on a copy of it. -/
def InsertTrianglesBody (k : Strategy) (state : GLState) (s : BaseStrategy)
    (params : AttributeProvider) (b : Batcher) : BodyResult :=
  let vertexCount := params.GetVertexCount
  let r := b.GetBuffer state
  let buffer := r.1
  let b := r.2
  let availableVertexCount := buffer.GetAvailableVertexCount
  let availableIndexCount := buffer.GetAvailableIndexCount
  if availableIndexCount = 0 then
    BodyResult.stop Outcome.assertAvailableIndexCount b []
  else if availableVertexCount = 0 then
    BodyResult.stop Outcome.assertAvailableVertexCount b []
  else
    let c := clampCounts k vertexCount availableVertexCount availableIndexCount
    let needFinalizeBuffer := c.1
    let startIndexValue := buffer.GetStartIndexValue
    let s := s.SetStartIndex startIndexValue
    let indexes := generate k c.2.2 s
    let buffer := (buffer.UploadIndexes c.2.2).UploadData c.2.1
    let b := { b with m_buckets := b.m_buckets.store state buffer }
    let it : Iteration :=
      { strategy := k, state := state, requestedVertexCount := vertexCount,
        availableVertexCount := availableVertexCount,
        availableIndexCount := availableIndexCount,
        needFinalizeBuffer := needFinalizeBuffer,
        vertexCount := c.2.1, indexCount := c.2.2,
        startIndexValue := startIndexValue, indexes := indexes }
    match params.Advance c.2.1 with
    | none => BodyResult.stop Outcome.advanceBeyondData b [it]
    | some params =>
      match (if needFinalizeBuffer then b.FinalizeBuffer state else some b) with
      | none => BodyResult.stop Outcome.assertFinalizeBuffer b [it]
      | some b => BodyResult.next s params b it

/-- The record of the pass the loop body makes from batcher `b`, when neither
`ASSERT` on the available counts stops it: the values lines 111-138 compute. -/
def iterationAt (k : Strategy) (state : GLState) (s : BaseStrategy)
    (params : AttributeProvider) (b : Batcher) : Iteration :=
  let buffer := (b.GetBuffer state).1
  let c := clampCounts k params.GetVertexCount buffer.GetAvailableVertexCount
    buffer.GetAvailableIndexCount
  { strategy := k, state := state, requestedVertexCount := params.GetVertexCount,
    availableVertexCount := buffer.GetAvailableVertexCount,
    availableIndexCount := buffer.GetAvailableIndexCount,
    needFinalizeBuffer := c.1,
    vertexCount := c.2.1, indexCount := c.2.2,
    startIndexValue := buffer.GetStartIndexValue,
    indexes := generate k c.2.2 (s.SetStartIndex buffer.GetStartIndexValue) }

/-- The batcher after the uploads of that pass (lines 140-147), before `Advance`. -/
def uploadedAt (k : Strategy) (state : GLState) (params : AttributeProvider)
    (b : Batcher) : Batcher :=
  let r := b.GetBuffer state
  let c := clampCounts k params.GetVertexCount r.1.GetAvailableVertexCount
    r.1.GetAvailableIndexCount
  { r.2 with m_buckets := r.2.m_buckets.store state ((r.1.UploadIndexes c.2.2).UploadData c.2.1) }

/-- The loop `while (params->IsDataExists())` of `InsertTriangles`, at most `bound`
iterations. -/
def InsertTrianglesLoop (k : Strategy) (state : GLState) :
    Nat → BaseStrategy → AttributeProvider → Batcher → Run
  | 0, _, params, b =>
    { outcome := if params.IsDataExists then Outcome.iterationBound else Outcome.returned,
      batcher := b, iterations := [] }
  | bound + 1, s, params, b =>
    if params.IsDataExists then
      match InsertTrianglesBody k state s params b with
      | BodyResult.stop outcome b iterations =>
        { outcome := outcome, batcher := b, iterations := iterations }
      | BodyResult.next s params b it =>
        let rest := InsertTrianglesLoop k state bound s params b
        { rest with iterations := it :: rest.iterations }
    else
      { outcome := Outcome.returned, batcher := b, iterations := [] }

/-- The method `InsertTriangles`.  Every iteration that does not stop the run
consumes at least one vertex, so the number of vertices held bounds the number of
iterations. -/
def InsertTriangles (b : Batcher) (state : GLState) (k : Strategy)
    (params : AttributeProvider) : Run :=
  InsertTrianglesLoop k state params.m_vertexCount BaseStrategy.init params b

def InsertTriangleList (b : Batcher) (state : GLState) (params : AttributeProvider) : Run :=
  b.InsertTriangles state Strategy.TrianglesList params

def InsertTriangleStrip (b : Batcher) (state : GLState) (params : AttributeProvider) : Run :=
  b.InsertTriangles state Strategy.TrianglesStrip params

def InsertTriangleFan (b : Batcher) (state : GLState) (params : AttributeProvider) : Run :=
  b.InsertTriangles state Strategy.TrianglesFan params

/-- The buckets of `state` that were passed to `FlushFullBucket`, oldest first. -/
def flushedBuckets (b : Batcher) (state : GLState) : List VertexArrayBuffer :=
  b.m_flushInterface.filterMap fun c =>
    match c with
    | FlushCall.FlushFullBucket st bucket => if st = state then some bucket else none
    | FlushCall.UseIncompleteBucket _ _ => none

/-- All buckets of `state`: those flushed as full, then the open one if there is one. -/
def bucketsOf (b : Batcher) (state : GLState) : List VertexArrayBuffer :=
  b.flushedBuckets state ++ (b.m_buckets.find state).toList

/-- Vertices uploaded over all buckets of `state`. -/
def uploadedVertexCount (b : Batcher) (state : GLState) : Nat :=
  ((b.bucketsOf state).map VertexArrayBuffer.vertexUploaded).sum

/-- Indices uploaded over all buckets of `state`. -/
def uploadedIndexCount (b : Batcher) (state : GLState) : Nat :=
  ((b.bucketsOf state).map VertexArrayBuffer.indexUploaded).sum

end Batcher

/-- Every open bucket was created by `GetBuffer` (capacity 768 / 512) and holds no
more than its capacity. -/
def Batcher.WellFormed (b : Batcher) : Prop :=
  ∀ state bucket, b.m_buckets.find state = some bucket →
    bucket.vertexCapacity = 768 ∧ bucket.indexCapacity = 512 ∧
    bucket.vertexUploaded ≤ 768 ∧ bucket.indexUploaded ≤ 512

/-- One call of `InsertTriangleList`, `InsertTriangleStrip` or `InsertTriangleFan`. -/
structure InsertCall where
  strategy : Strategy
  state : GLState
  params : AttributeProvider
  deriving DecidableEq

/-- A sequence of insert calls on one batcher; it stops at the first call that does
not return. -/
def insertAll : List InsertCall → Batcher → Run
  | [], b => { outcome := Outcome.returned, batcher := b, iterations := [] }
  | c :: cs, b =>
    let r := b.InsertTriangles c.state c.strategy c.params
    match r.outcome with
    | Outcome.returned =>
      let rest := insertAll cs r.batcher
      { rest with iterations := r.iterations ++ rest.iterations }
    | _ => r

/-- The method `RequestIncompleteBuckets`: `UseIncompleteBucket` is called for every
entry of the bucket map, in the order of the map; the map itself is not touched. -/
def Batcher.RequestIncompleteBuckets (b : Batcher) : Batcher :=
  { b with
    m_flushInterface :=
      b.m_flushInterface ++ b.m_buckets.map (fun e => FlushCall.UseIncompleteBucket e.1 e.2) }

/-- The keys of a `std::map` are kept in strictly ascending order. -/
def buckets_t.Ordered (m : buckets_t) : Prop :=
  (m.map Prod.fst).Pairwise (fun a b => a < b)

/-- The number of entries the map holds for `state`. -/
def buckets_t.count (m : buckets_t) (state : GLState) : Nat :=
  (m.filter (fun e => e.1 = state)).length

/-- The number of `UseIncompleteBucket` calls for `state` among the calls received by
the flush sink. -/
def useIncompleteCount (calls : List FlushCall) (state : GLState) : Nat :=
  (calls.filter fun c =>
    match c with
    | FlushCall.UseIncompleteBucket st _ => st = state
    | FlushCall.FlushFullBucket _ _ => false).length

/-! ## The GPU program manager (`gpu_program_manager.cpp`) -/

/-- The text of the constant `SimpleVertexShader`. -/
def SimpleVertexShader : String :=
  "attribute vec2 position;" ++
  "       uniform float depth;" ++
  "       uniform mat4 modelViewMatrix;" ++
  "       uniform mat4 projectionMatrix;" ++
  "       void main()" ++
  "       \x7b" ++
  "         gl_Position = vec4(position.xy, depth, 1.0) * modelViewMatrix * projectionMatrix;" ++
  "       \x7d"

/-- The text of the constant `SimpleFragmentShader`. -/
def SimpleFragmentShader : String :=
  "uniform vec4 color;" ++
  "        void main()" ++
  "        \x7b" ++
  "          gl_FragColor = color;" ++
  "        \x7d"

/-- The struct `ShadersInfo`. -/
structure ShadersInfo where
  VertexShaderIndex : Int
  FragmentShaderIndex : Int
  VertexShaderSource : String
  FragmentShaderSource : String
  deriving DecidableEq

namespace ShaderMapper

/-- The table `m_mapping` as the constructor `ShaderMapper()` fills it: one entry,
for program 1. -/
def m_mapping : List (Int × ShadersInfo) :=
  [(1, { VertexShaderIndex := 1, FragmentShaderIndex := 2,
         VertexShaderSource := SimpleVertexShader,
         FragmentShaderSource := SimpleFragmentShader })]

/-- The method `GetShaders`: `none` when the `ASSERT` fails (no entry for `program`). -/
def GetShaders (program : Int) : Option ShadersInfo :=
  m_mapping.lookup program

end ShaderMapper

/-- Modelled from the spec: the enumeration `ShaderReference::Type` is declared outside
the source under study; the two values `GetProgram` uses. -/
inductive ShaderType where
  | VertexShader
  | FragmentShader
  deriving DecidableEq

/-- Modelled from the spec: `ShaderReference` is declared outside the source under
study.  The spec describes a compiled single-stage shader that carries a reference
count.  `address` tells apart the objects made by `new`: it is the number of objects
the manager had made before. -/
structure ShaderReference where
  address : Nat
  m_source : String
  m_type : ShaderType
  m_refCount : Nat
  deriving DecidableEq

namespace ShaderReference

/-- Modelled from the spec: `Ref()` increments the reference count. -/
def Ref (r : ShaderReference) : ShaderReference := { r with m_refCount := r.m_refCount + 1 }

/-- Modelled from the spec: `Deref()` decrements the reference count; the shader is
released when the count reaches zero. -/
def Deref (r : ShaderReference) : ShaderReference := { r with m_refCount := r.m_refCount - 1 }

end ShaderReference

/-- Modelled from the spec: `GpuProgram` is declared outside the source under study.
The spec describes a linked pair of a vertex and a fragment shader; the record keeps
the two weak pointers its constructor receives, as addresses. -/
structure GpuProgram where
  address : Nat
  m_vertexShader : Nat
  m_fragmentShader : Nat
  deriving DecidableEq

/-- An object made by `new` inside the manager. -/
inductive Created where
  | shader (index : Int) (source : String) (t : ShaderType)
  | program (index : Int)
  deriving DecidableEq

/-- The state of a `GpuProgramManager`: the two caches (the entry made last comes
first; a key is entered only when it is absent) and every object made so far, oldest
first. -/
structure GpuProgramManager where
  m_programs : List (Int × GpuProgram)
  m_shaders : List (Int × ShaderReference)
  m_created : List Created
  deriving DecidableEq

namespace GpuProgramManager

/-- The constructor: both caches empty. -/
def init : GpuProgramManager := { m_programs := [], m_shaders := [], m_created := [] }

/-- The method `GetShader`: when `index` is not cached a `ShaderReference` is made from
`source` and `t`, gets one `Ref()` and is entered; the result is the weak pointer to
`m_shaders[index]`. -/
def GetShader (m : GpuProgramManager) (index : Int) (source : String) (t : ShaderType) :
    Nat × GpuProgramManager :=
  match m.m_shaders.lookup index with
  | some r => (r.address, m)
  | none =>
    let r : ShaderReference :=
      { address := m.m_created.length, m_source := source, m_type := t, m_refCount := 0 }
    let r := r.Ref
    (r.address,
      { m with m_shaders := (index, r) :: m.m_shaders,
               m_created := m.m_created ++ [Created.shader index source t] })

/-- The method `GetProgram`: the weak pointer to the cached program, or `none` when
the `ASSERT` of `GetShaders` fails; with it the manager as the call leaves it. -/
def GetProgram (m : GpuProgramManager) (index : Int) : Option Nat × GpuProgramManager :=
  match m.m_programs.lookup index with
  | some p => (some p.address, m)
  | none =>
    match ShaderMapper.GetShaders index with
    | none => (none, m)
    | some shaders =>
      let vertexShader :=
        m.GetShader shaders.VertexShaderIndex shaders.VertexShaderSource ShaderType.VertexShader
      let fragmentShader :=
        vertexShader.2.GetShader shaders.FragmentShaderIndex shaders.FragmentShaderSource
          ShaderType.FragmentShader
      let m := fragmentShader.2
      let p : GpuProgram :=
        { address := m.m_created.length, m_vertexShader := vertexShader.1,
          m_fragmentShader := fragmentShader.1 }
      (some p.address,
        { m with m_programs := (index, p) :: m.m_programs,
                 m_created := m.m_created ++ [Created.program index] })

/-- The destructor, as far as the shaders go: every cached shader gets one `Deref()`
before it is destroyed.  The result lists the shaders as `Destroy` finds them. -/
def destroy (m : GpuProgramManager) : List ShaderReference :=
  m.m_shaders.map (fun e => e.2.Deref)

/-- The number of `ShaderReference` objects made for shader `index`. -/
def shadersCreated (m : GpuProgramManager) (index : Int) : Nat :=
  (m.m_created.filter fun c =>
    match c with
    | Created.shader i _ _ => i = index
    | Created.program _ => false).length

/-- The number of `GpuProgram` objects made for program `index`. -/
def programsCreated (m : GpuProgramManager) (index : Int) : Nat :=
  (m.m_created.filter fun c =>
    match c with
    | Created.shader _ _ _ => false
    | Created.program i => i = index).length

end GpuProgramManager

/-- What holds of every manager reached from a new one: each cached shader has the
reference count 1; a shader object was made once for a cached index and never for
another; and a cached program has an entry in the shader table and points to the
cached shaders of that entry. -/
def GpuProgramManager.Consistent (m : GpuProgramManager) : Prop :=
  (∀ e ∈ m.m_shaders, e.2.m_refCount = 1) ∧
  (∀ index, m.shadersCreated index = if (m.m_shaders.lookup index).isSome then 1 else 0) ∧
  (∀ index p, m.m_programs.lookup index = some p →
    ∃ shaders v f, ShaderMapper.GetShaders index = some shaders ∧
      m.m_shaders.lookup shaders.VertexShaderIndex = some v ∧
      m.m_shaders.lookup shaders.FragmentShaderIndex = some f ∧
      p.m_vertexShader = v.address ∧ p.m_fragmentShader = f.address)

/-- One call of `GetShader` or `GetProgram`. -/
inductive ManagerCall where
  | GetShader (index : Int) (source : String) (t : ShaderType)
  | GetProgram (index : Int)
  deriving DecidableEq

/-- A sequence of calls on one manager; it stops at the first call whose `ASSERT`
fails.  The result is the manager reached. -/
def callAll : List ManagerCall → GpuProgramManager → GpuProgramManager
  | [], m => m
  | ManagerCall.GetShader index source t :: cs, m => callAll cs (m.GetShader index source t).2
  | ManagerCall.GetProgram index :: cs, m =>
    match m.GetProgram index with
    | (some _, m') => callAll cs m'
    | (none, m') => m'

end Drape

/-! ## The order of Viator products (`partners_api/viator_api.cpp`, lines 232-249) -/

namespace viator

/-- Modelled from the spec: the struct `Product` is declared outside the source under
study, and the spec, which leaves partner content out of its scope, does not describe
it.  Only the three fields that `operator<` reads are kept; they are numbers that the
code compares with `<` and `==`, taken here as integers. -/
structure Product where
  m_rating : Int
  m_reviewCount : Int
  m_price : Int
  deriving DecidableEq

/-- The function `operator<` on products (lines 232-237). -/
def operator_lt (lhs rhs : Product) : Bool :=
  decide (lhs.m_rating < rhs.m_rating) ||
    (decide (lhs.m_rating = rhs.m_rating) && decide (lhs.m_reviewCount < rhs.m_reviewCount)) ||
    (decide (lhs.m_reviewCount = rhs.m_reviewCount) && decide (lhs.m_price < rhs.m_price))

/-- The order the comment on `SortProducts` states: by rating, then by review count,
then by price, that is the lexicographic order of the three fields. -/
def lexLess (a b : Product) : Prop :=
  a.m_rating < b.m_rating ∨
    (a.m_rating = b.m_rating ∧
      (a.m_reviewCount < b.m_reviewCount ∨
        (a.m_reviewCount = b.m_reviewCount ∧ a.m_price < b.m_price)))

end viator

namespace Drape

/-! # Theorems -/

open Batcher Strategy

/-! ## Closed form of the generated indices -/

theorem call_snd (k : Strategy) (start c : Nat) (h : c + 1 < 65536) :
    (k.call { m_startIndex := start, m_counter := c }).2 = { m_startIndex := start, m_counter := c + 1 } := by
  cases k <;>
    simp [Strategy.call, TrianglesListStrategy.call, TrianglesStripStrategy.call,
      TrianglesFanStrategy.call, BaseStrategy.GetCounter, toUInt16] <;>
    first | omega | (split <;> simp <;> omega)

theorem generate_eq_map (k : Strategy) (n : Nat) : ∀ (start c : Nat), c + n ≤ 65536 →
    generate k n { m_startIndex := start, m_counter := c } =
      (List.range n).map (fun i => indexAt k start (c + i)) := by
  induction n with
  | zero => intro start c _; simp [generate]
  | succ n ih =>
    intro start c h
    rw [generate, List.range_succ_eq_map, List.map_cons, List.map_map]
    rcases Nat.eq_zero_or_pos n with h0 | hpos
    · subst h0; simp [generate, indexAt]
    · rw [call_snd k start c (by omega), ih start (c + 1) (by omega)]
      simp only [indexAt, Nat.add_zero, List.cons.injEq, true_and]
      apply List.map_congr_left
      intro i _
      simp only [Function.comp, Nat.succ_eq_add_one]
      congr 3
      omega

theorem generate_getElem? (k : Strategy) (start n i : Nat) (hn : n ≤ 65536) (hi : i < n) :
    (generate k n (BaseStrategy.init.SetStartIndex start))[i]? = some (indexAt k start i) := by
  have h := generate_eq_map k n start 0 (by omega)
  simp only [BaseStrategy.init, BaseStrategy.SetStartIndex]
  rw [h]
  simp [List.getElem?_map, List.getElem?_range hi]

theorem indexAt_list (start i : Nat) :
    indexAt Strategy.TrianglesList start i = (start + i) % 65536 := by
  simp [indexAt, Strategy.call, TrianglesListStrategy.call, BaseStrategy.GetCounter, toUInt16]
  omega

theorem indexAt_strip (start i : Nat) :
    indexAt Strategy.TrianglesStrip start i = (start + i - 2 * (i / 3)) % 65536 := by
  simp [indexAt, Strategy.call, TrianglesStripStrategy.call, BaseStrategy.GetCounter, toUInt16]
  omega

theorem indexAt_fan (start i : Nat) :
    indexAt Strategy.TrianglesFan start i =
      if i % 3 = 0 then start else (start + i - 2 * (i / 3)) % 65536 := by
  simp only [indexAt, Strategy.call, TrianglesFanStrategy.call, BaseStrategy.GetCounter, toUInt16]
  by_cases h : i % 3 = 0
  · have : (i : Int) % 3 = 0 := by omega
    simp [h, this]
  · have : ¬ (i : Int) % 3 = 0 := by omega
    simp [h, this]
    omega



/-! ## The bucket map -/

theorem buckets_t.find_store (m : buckets_t) (k k' : GLState) (v : VertexArrayBuffer) :
    buckets_t.find (buckets_t.store m k v) k' = if k = k' then some v else buckets_t.find m k' := by
  induction m with
  | nil => simp [buckets_t.store, buckets_t.find]
  | cons hd tl ih =>
    obtain ⟨a, w⟩ := hd
    simp only [buckets_t.store]
    split_ifs with h1 h2 h3 <;> simp_all [buckets_t.find]

theorem buckets_t.find_erase (m : buckets_t) (k k' : GLState) :
    buckets_t.find (buckets_t.erase m k) k' = if k = k' then none else buckets_t.find m k' := by
  induction m with
  | nil => simp [buckets_t.erase, buckets_t.find]
  | cons hd tl ih =>
    obtain ⟨a, w⟩ := hd
    simp only [buckets_t.erase]
    split_ifs with h1 h2 <;> simp_all [buckets_t.find]

/-! ## The clamp of `InsertTriangles` -/

theorem strip_GetIndexCount_eq (v : Nat) (hv : v ≤ 21847) :
    TrianglesStripStrategy.GetIndexCount v = if 2 ≤ v then 3 * (v - 2) else 65530 + 3 * v := by
  unfold TrianglesStripStrategy.GetIndexCount toUInt16
  split_ifs <;> omega

theorem strip_GetVertexCount_eq (i : Nat) (hi : i < 65536) :
    TrianglesStripStrategy.GetVertexCount i = i / 3 + 2 := by
  unfold TrianglesStripStrategy.GetVertexCount toUInt16
  omega

theorem fan_GetIndexCount_eq_strip (v : Nat) :
    TrianglesFanStrategy.GetIndexCount v = TrianglesStripStrategy.GetIndexCount v := rfl

theorem fan_GetVertexCount_eq_strip (i : Nat) :
    TrianglesFanStrategy.GetVertexCount i = TrianglesStripStrategy.GetVertexCount i := rfl

/-- The counts chosen by the clamp for the strip formulas, inside a bucket's
capacity: at least two vertices, the index count `3 * (v - 2)` of the vertex count,
and no more than 768 vertices. -/
theorem clampCounts_strip_shape (k : Strategy) (hk : k ≠ Strategy.TrianglesList)
    (vertexCount availV availI : Nat)
    (hV : 0 < availV) (hI : 0 < availI) (hcV : availV ≤ 768) (hcI : availI ≤ 512) :
    2 ≤ (clampCounts k vertexCount availV availI).2.1 ∧
    (clampCounts k vertexCount availV availI).2.1 ≤ 768 ∧
    (clampCounts k vertexCount availV availI).2.2 =
      3 * ((clampCounts k vertexCount availV availI).2.1 - 2) := by
  have hA := strip_GetIndexCount_eq availV (by omega)
  have hB := strip_GetVertexCount_eq availI (by omega)
  have hC := strip_GetIndexCount_eq (availI / 3 + 2) (by omega)
  have key : 2 ≤ (clampCounts Strategy.TrianglesStrip vertexCount availV availI).2.1 ∧
      (clampCounts Strategy.TrianglesStrip vertexCount availV availI).2.1 ≤ 768 ∧
      (clampCounts Strategy.TrianglesStrip vertexCount availV availI).2.2 =
        3 * ((clampCounts Strategy.TrianglesStrip vertexCount availV availI).2.1 - 2) := by
    simp only [clampCounts, Strategy.GetIndexCount, Strategy.GetVertexCount]
    by_cases h1 : vertexCount > availV ∨
        TrianglesStripStrategy.GetIndexCount vertexCount > availI
    · rw [if_pos h1]
      by_cases h2 : TrianglesStripStrategy.GetIndexCount availV ≤ availI
      · simp only [if_pos h2]
        rw [hA] at h2 ⊢
        split_ifs at h2 ⊢ <;> omega
      · simp only [if_neg h2]
        rw [hB, hC]
        rw [if_pos (by omega)]
        omega
    · rw [if_neg h1]
      have hD := strip_GetIndexCount_eq vertexCount (by omega)
      simp only []
      rw [hD] at h1 ⊢
      split_ifs at h1 ⊢ <;> omega
  cases k
  · exact absurd rfl hk
  · exact key
  · exact key

/-- The counts chosen by the clamp for the list formulas: as many indices as
vertices, and no more than the available vertex count. -/
theorem clampCounts_list_shape (vertexCount availV availI : Nat) :
    (clampCounts Strategy.TrianglesList vertexCount availV availI).2.1 ≤ availV ∧
    (clampCounts Strategy.TrianglesList vertexCount availV availI).2.2 =
      (clampCounts Strategy.TrianglesList vertexCount availV availI).2.1 := by
  simp only [clampCounts, Strategy.GetIndexCount, Strategy.GetVertexCount,
    TrianglesListStrategy.GetIndexCount, TrianglesListStrategy.GetVertexCount]
  split_ifs <;> dsimp only <;> omega

/-- Within a bucket's capacity the clamp yields counts whose generated indices all
refer to vertices uploaded in the same iteration. -/
theorem clampCounts_indexes_range (k : Strategy) (vertexCount availV availI start : Nat)
    (hV : 0 < availV) (hI : 0 < availI) (hsV : start + availV ≤ 768) (hcI : availI ≤ 512)
    (x : Nat)
    (hx : x ∈ generate k (clampCounts k vertexCount availV availI).2.2
      { m_startIndex := start, m_counter := 0 }) :
    start ≤ x ∧ x < start + (clampCounts k vertexCount availV availI).2.1 := by
  by_cases hk : k = Strategy.TrianglesList
  · subst hk
    obtain ⟨h1, h2⟩ := clampCounts_list_shape vertexCount availV availI
    rw [generate_eq_map _ _ start 0 (by omega)] at hx
    simp only [List.mem_map, List.mem_range, Nat.zero_add, indexAt_list] at hx
    obtain ⟨i, hi, rfl⟩ := hx
    omega
  · obtain ⟨h1, h2, h3⟩ :=
      clampCounts_strip_shape k hk vertexCount availV availI hV hI (by omega) hcI
    rw [generate_eq_map _ _ start 0 (by omega)] at hx
    simp only [List.mem_map, List.mem_range, Nat.zero_add] at hx
    obtain ⟨i, hi, rfl⟩ := hx
    cases k
    · exact absurd rfl hk
    · rw [indexAt_strip]; omega
    · rw [indexAt_fan]; split_ifs <;> omega

/-! ## One pass through the loop body -/

theorem GetBuffer_find (b : Batcher) (st : GLState) :
    (b.GetBuffer st).2.m_buckets.find st = some (b.GetBuffer st).1 := by
  unfold Batcher.GetBuffer
  split
  · next buffer h => simpa using h
  · simp [buckets_t.find_store]

theorem GetBuffer_find_other (b : Batcher) (st st' : GLState) (h : st ≠ st') :
    (b.GetBuffer st).2.m_buckets.find st' = b.m_buckets.find st' := by
  unfold Batcher.GetBuffer
  split
  · rfl
  · simp [buckets_t.find_store, h]

theorem GetBuffer_flushInterface (b : Batcher) (st : GLState) :
    (b.GetBuffer st).2.m_flushInterface = b.m_flushInterface := by
  unfold Batcher.GetBuffer
  split <;> rfl

theorem GetBuffer_eq (b : Batcher) (st : GLState) :
    (b.m_buckets.find st = some (b.GetBuffer st).1) ∨
    (b.m_buckets.find st = none ∧ (b.GetBuffer st).1 = VertexArrayBuffer.create 768 512) := by
  unfold Batcher.GetBuffer
  split
  · next buffer h => left; simpa using h
  · next h => right; exact ⟨h, rfl⟩

theorem GetBuffer_wellFormed (b : Batcher) (st : GLState) (h : b.WellFormed) :
    (b.GetBuffer st).2.WellFormed ∧
    (b.GetBuffer st).1.vertexCapacity = 768 ∧ (b.GetBuffer st).1.indexCapacity = 512 ∧
    (b.GetBuffer st).1.vertexUploaded ≤ 768 ∧ (b.GetBuffer st).1.indexUploaded ≤ 512 := by
  have hb : (b.GetBuffer st).1.vertexCapacity = 768 ∧ (b.GetBuffer st).1.indexCapacity = 512 ∧
      (b.GetBuffer st).1.vertexUploaded ≤ 768 ∧ (b.GetBuffer st).1.indexUploaded ≤ 512 := by
    rcases GetBuffer_eq b st with h1 | ⟨_, h2⟩
    · exact h st _ h1
    · rw [h2]; simp [VertexArrayBuffer.create]
  refine ⟨?_, hb⟩
  intro st' bucket hf
  by_cases e : st = st'
  · subst e
    rw [GetBuffer_find] at hf
    cases hf
    exact hb
  · rw [GetBuffer_find_other b st st' e] at hf
    exact h st' bucket hf

/-- The iterations of a pass: none when an `ASSERT` on the available counts fails,
else exactly the record `iterationAt`. -/
theorem body_iterations (k : Strategy) (st : GLState) (s : BaseStrategy)
    (p : AttributeProvider) (b : Batcher) :
    ∀ it ∈ (InsertTrianglesBody k st s p b).iterations,
      it = iterationAt k st s p b ∧
      (b.GetBuffer st).1.GetAvailableIndexCount ≠ 0 ∧
      (b.GetBuffer st).1.GetAvailableVertexCount ≠ 0 := by
  intro it hit
  unfold InsertTrianglesBody at hit
  simp only [] at hit
  split_ifs at hit with hI hV hN
  · simp [BodyResult.iterations] at hit
  · simp [BodyResult.iterations] at hit
  · split at hit
    · simp only [BodyResult.iterations, List.mem_singleton] at hit
      exact ⟨hit, hI, hV⟩
    · split at hit <;>
        simp only [BodyResult.iterations, List.mem_singleton] at hit <;>
        exact ⟨hit, hI, hV⟩
  · split at hit
    · simp only [BodyResult.iterations, List.mem_singleton] at hit
      exact ⟨hit, hI, hV⟩
    · simp only [BodyResult.iterations, List.mem_singleton] at hit
      exact ⟨hit, hI, hV⟩

/-- What a pass that lets the loop go on has done. -/
theorem body_next (k : Strategy) (st : GLState) (s : BaseStrategy)
    (p : AttributeProvider) (b : Batcher) (s' : BaseStrategy) (p' : AttributeProvider)
    (b' : Batcher) (it : Iteration)
    (h : InsertTrianglesBody k st s p b = BodyResult.next s' p' b' it) :
    it = iterationAt k st s p b ∧
    s'.m_counter = s.m_counter ∧
    p.Advance it.vertexCount = some p' ∧
    ((it.needFinalizeBuffer = false ∧ b' = uploadedAt k st p b) ∨
     (it.needFinalizeBuffer = true ∧ (uploadedAt k st p b).FinalizeBuffer st = some b')) := by
  unfold InsertTrianglesBody at h
  simp only [] at h
  split_ifs at h with hI hV hN
  · split at h
    · cases h
    · next p'' hadv =>
      split at h
      · cases h
      · next b'' hfin =>
        cases h
        refine ⟨rfl, rfl, hadv, Or.inr ⟨hN, hfin⟩⟩
  · split at h
    · cases h
    · next p'' hadv =>
      simp only [BodyResult.next.injEq] at h
      obtain ⟨rfl, rfl, rfl, rfl⟩ := h
      refine ⟨rfl, rfl, hadv, Or.inl ⟨?_, rfl⟩⟩
      simpa [iterationAt] using hN

theorem iterationAt_indexes_range (k : Strategy) (st : GLState) (s : BaseStrategy)
    (p : AttributeProvider) (b : Batcher) (hb : b.WellFormed) (hs : s.m_counter = 0)
    (hI : (b.GetBuffer st).1.GetAvailableIndexCount ≠ 0)
    (hV : (b.GetBuffer st).1.GetAvailableVertexCount ≠ 0) :
    ∀ x ∈ (iterationAt k st s p b).indexes,
      (iterationAt k st s p b).startIndexValue ≤ x ∧
      x < (iterationAt k st s p b).startIndexValue + (iterationAt k st s p b).vertexCount := by
  obtain ⟨_, h1, h2, h3, h4⟩ := GetBuffer_wellFormed b st hb
  intro x hx
  simp only [iterationAt] at hx ⊢
  have hs' : s.SetStartIndex (b.GetBuffer st).1.GetStartIndexValue =
      { m_startIndex := (b.GetBuffer st).1.GetStartIndexValue, m_counter := 0 } := by
    simp [BaseStrategy.SetStartIndex, hs]
  rw [hs'] at hx
  apply clampCounts_indexes_range k _ _ _ _ (by omega) (by omega) _ _ x hx
  · simp only [VertexArrayBuffer.GetStartIndexValue,
      VertexArrayBuffer.GetAvailableVertexCount]
    omega
  · simp only [VertexArrayBuffer.GetAvailableIndexCount]
    omega

/-- Without the finalize flag the counts fit the available counts. -/
theorem clampCounts_fits (k : Strategy) (vertexCount availV availI : Nat)
    (h : (clampCounts k vertexCount availV availI).1 = false) :
    (clampCounts k vertexCount availV availI).2.1 ≤ availV ∧
    (clampCounts k vertexCount availV availI).2.2 ≤ availI := by
  simp only [clampCounts] at h ⊢
  by_cases hc : vertexCount > availV ∨ k.GetIndexCount vertexCount > availI
  · rw [if_pos hc] at h
    simp at h
  · rw [if_neg hc]
    dsimp only
    omega

theorem uploadedAt_wellFormed (k : Strategy) (st : GLState) (p : AttributeProvider)
    (b : Batcher) (hb : b.WellFormed)
    (hN : (iterationAt k st BaseStrategy.init p b).needFinalizeBuffer = false) :
    (uploadedAt k st p b).WellFormed := by
  obtain ⟨hw, h1, h2, h3, h4⟩ := GetBuffer_wellFormed b st hb
  have hfit := clampCounts_fits k p.GetVertexCount
    (b.GetBuffer st).1.GetAvailableVertexCount (b.GetBuffer st).1.GetAvailableIndexCount
    (by simpa [iterationAt] using hN)
  intro st' bucket hf
  simp only [uploadedAt, buckets_t.find_store] at hf
  split_ifs at hf with e
  · cases hf
    simp only [VertexArrayBuffer.UploadData, VertexArrayBuffer.UploadIndexes,
      VertexArrayBuffer.GetAvailableVertexCount, VertexArrayBuffer.GetAvailableIndexCount] at hfit ⊢
    omega
  · exact hw st' bucket hf

theorem FinalizeBuffer_wellFormed_of_others (b b' : Batcher) (st : GLState)
    (hb : ∀ st' bucket, st' ≠ st → b.m_buckets.find st' = some bucket →
      bucket.vertexCapacity = 768 ∧ bucket.indexCapacity = 512 ∧
      bucket.vertexUploaded ≤ 768 ∧ bucket.indexUploaded ≤ 512)
    (h : b.FinalizeBuffer st = some b') : b'.WellFormed := by
  unfold Batcher.FinalizeBuffer at h
  split at h
  · cases h
  · cases h
    intro st' bucket hf
    simp only [buckets_t.find_erase] at hf
    split_ifs at hf with e
    exact hb st' bucket (fun e' => e e'.symm) hf

theorem body_next_wellFormed (k : Strategy) (st : GLState) (s : BaseStrategy)
    (p : AttributeProvider) (b : Batcher) (s' : BaseStrategy) (p' : AttributeProvider)
    (b' : Batcher) (it : Iteration) (hb : b.WellFormed)
    (h : InsertTrianglesBody k st s p b = BodyResult.next s' p' b' it) : b'.WellFormed := by
  obtain ⟨hit, _, _, hcase⟩ := body_next k st s p b s' p' b' it h
  rcases hcase with ⟨hN, rfl⟩ | ⟨_, hfin⟩
  · apply uploadedAt_wellFormed k st p b hb
    rw [hit] at hN
    simpa [iterationAt] using hN
  · apply FinalizeBuffer_wellFormed_of_others _ _ st _ hfin
    intro st' bucket hne hf
    have hne' : ¬ st = st' := fun e => hne e.symm
    simp only [uploadedAt, buckets_t.find_store, if_neg hne'] at hf
    exact (GetBuffer_wellFormed b st hb).1 st' bucket hf

/-- Along the loop from a well-formed batcher every iteration keeps its indices inside
the vertices it uploads, and a run that returns leaves a well-formed batcher. -/
theorem loop_wellFormed (k : Strategy) (st : GLState) (bound : Nat) :
    ∀ (s : BaseStrategy) (p : AttributeProvider) (b : Batcher),
      b.WellFormed → s.m_counter = 0 →
      (∀ it ∈ (InsertTrianglesLoop k st bound s p b).iterations, ∀ x ∈ it.indexes,
        it.startIndexValue ≤ x ∧ x < it.startIndexValue + it.vertexCount) ∧
      ((InsertTrianglesLoop k st bound s p b).outcome = Outcome.returned →
        (InsertTrianglesLoop k st bound s p b).batcher.WellFormed) := by
  induction bound with
  | zero =>
    intro s p b hb _
    simp only [InsertTrianglesLoop]
    exact ⟨by simp, fun _ => hb⟩
  | succ bound ih =>
    intro s p b hb hs
    rw [InsertTrianglesLoop]
    split_ifs with hd
    · have hits := body_iterations k st s p b
      split
      · next outcome b' its heq =>
        rw [heq] at hits
        dsimp only
        constructor
        · intro it hit
          obtain ⟨rfl, hI, hV⟩ := hits it hit
          exact iterationAt_indexes_range k st s p b hb hs hI hV
        · intro ho
          subst ho
          unfold InsertTrianglesBody at heq
          simp only [] at heq
          split_ifs at heq <;> (try cases heq) <;>
            (split at heq <;> (try cases heq) <;> (try (split at heq <;> cases heq)))
      · next s' p' b' it heq =>
        rw [heq] at hits
        obtain ⟨_, hs', _, _⟩ := body_next k st s p b s' p' b' it heq
        have hb' := body_next_wellFormed k st s p b s' p' b' it hb heq
        obtain ⟨ih1, ih2⟩ := ih s' p' b' hb' (hs'.trans hs)
        dsimp only
        constructor
        · intro it' hit'
          rcases List.mem_cons.mp hit' with rfl | hmem
          · obtain ⟨rfl, hI, hV⟩ := hits it' (by simp [BodyResult.iterations])
            exact iterationAt_indexes_range k st s p b hb hs hI hV
          · exact ih1 it' hmem
        · exact ih2
    · exact ⟨by simp, fun _ => hb⟩

theorem body_stop_outcome (k : Strategy) (st : GLState) (s : BaseStrategy)
    (p : AttributeProvider) (b b' : Batcher) (o : Outcome) (its : List Iteration)
    (h : InsertTrianglesBody k st s p b = BodyResult.stop o b' its) :
    o ≠ Outcome.returned := by
  intro ho
  subst ho
  unfold InsertTrianglesBody at h
  simp only [] at h
  split_ifs at h <;> (try cases h) <;>
    (split at h <;> (try cases h) <;> (try (split at h <;> cases h)))

/-- The sum of a measure over all buckets of a state. -/
theorem bucketsOf_sum (f : VertexArrayBuffer → Nat) (b : Batcher) (st : GLState) :
    ((b.bucketsOf st).map f).sum =
      ((b.flushedBuckets st).map f).sum + ((b.m_buckets.find st).toList.map f).sum := by
  simp [Batcher.bucketsOf]

theorem GetBuffer_sum (f : VertexArrayBuffer → Nat) (hf0 : f (VertexArrayBuffer.create 768 512) = 0)
    (b : Batcher) (st st' : GLState) :
    (((b.GetBuffer st).2.bucketsOf st').map f).sum = ((b.bucketsOf st').map f).sum := by
  rw [bucketsOf_sum, bucketsOf_sum]
  have h1 : (b.GetBuffer st).2.flushedBuckets st' = b.flushedBuckets st' := by
    simp [Batcher.flushedBuckets, GetBuffer_flushInterface]
  rw [h1]
  by_cases e : st = st'
  · subst e
    rw [GetBuffer_find]
    rcases GetBuffer_eq b st with h | ⟨h, h'⟩
    · rw [h]
    · rw [h, h']; simp [hf0]
  · rw [GetBuffer_find_other b st st' e]

theorem uploadedAt_sum (f : VertexArrayBuffer → Nat) (g : Nat → Nat → Nat)
    (hf0 : f (VertexArrayBuffer.create 768 512) = 0)
    (hfg : ∀ buf i v, f ((buf.UploadIndexes i).UploadData v) = f buf + g i v)
    (k : Strategy) (st : GLState) (s : BaseStrategy) (p : AttributeProvider) (b : Batcher)
    (st' : GLState) :
    (((uploadedAt k st p b).bucketsOf st').map f).sum =
      ((b.bucketsOf st').map f).sum +
        if st = st' then g (iterationAt k st s p b).indexCount (iterationAt k st s p b).vertexCount
        else 0 := by
  rw [← GetBuffer_sum f hf0 b st st', bucketsOf_sum, bucketsOf_sum]
  have h1 : (uploadedAt k st p b).flushedBuckets st' = (b.GetBuffer st).2.flushedBuckets st' := by
    simp [Batcher.flushedBuckets, uploadedAt]
  rw [h1]
  simp only [uploadedAt, buckets_t.find_store, iterationAt]
  split_ifs with e
  · subst e
    rw [GetBuffer_find]
    simp [hfg]
    omega
  · simp

theorem FinalizeBuffer_sum (f : VertexArrayBuffer → Nat) (b b' : Batcher) (st st' : GLState)
    (h : b.FinalizeBuffer st = some b') :
    ((b'.bucketsOf st').map f).sum = ((b.bucketsOf st').map f).sum := by
  unfold Batcher.FinalizeBuffer at h
  split at h
  · cases h
  · next buffer hfind =>
    cases h
    rw [bucketsOf_sum, bucketsOf_sum]
    simp only [Batcher.flushedBuckets, List.filterMap_append, buckets_t.find_erase]
    by_cases e : st = st'
    · subst e
      simp [hfind]
    · simp [e]

theorem body_next_sum (f : VertexArrayBuffer → Nat) (g : Nat → Nat → Nat)
    (hf0 : f (VertexArrayBuffer.create 768 512) = 0)
    (hfg : ∀ buf i v, f ((buf.UploadIndexes i).UploadData v) = f buf + g i v)
    (k : Strategy) (st : GLState) (s : BaseStrategy)
    (p : AttributeProvider) (b : Batcher) (s' : BaseStrategy) (p' : AttributeProvider)
    (b' : Batcher) (it : Iteration)
    (h : InsertTrianglesBody k st s p b = BodyResult.next s' p' b' it) (st' : GLState) :
    ((b'.bucketsOf st').map f).sum =
      ((b.bucketsOf st').map f).sum + if st = st' then g it.indexCount it.vertexCount else 0 := by
  obtain ⟨rfl, _, _, hcase⟩ := body_next k st s p b s' p' b' it h
  rcases hcase with ⟨_, rfl⟩ | ⟨_, hfin⟩
  · exact uploadedAt_sum f g hf0 hfg k st s p b st'
  · rw [FinalizeBuffer_sum f _ _ st st' hfin]
    exact uploadedAt_sum f g hf0 hfg k st s p b st'

theorem clampCounts_indexCount (k : Strategy) (vertexCount availV availI : Nat) :
    (clampCounts k vertexCount availV availI).2.2 =
      k.GetIndexCount (clampCounts k vertexCount availV availI).2.1 := by
  simp only [clampCounts]
  split_ifs <;> rfl

theorem Advance_some (p p' : AttributeProvider) (v : Nat) (h : p.Advance v = some p') :
    p'.m_vertexCount + v = p.m_vertexCount := by
  unfold AttributeProvider.Advance at h
  split_ifs at h with hv
  cases h
  simp only
  omega

theorem not_IsDataExists (p : AttributeProvider) (h : ¬ p.IsDataExists = true) :
    p.m_vertexCount = 0 := by
  simpa [AttributeProvider.IsDataExists] using h

/-- Accounting along a loop that returns: the iterations belong to the call, their
vertex counts add up to what the provider held, and every measure of the buckets
grows by what the iterations uploaded. -/
theorem loop_accounting (k : Strategy) (st : GLState) (bound : Nat) :
    ∀ (s : BaseStrategy) (p : AttributeProvider) (b : Batcher),
      (InsertTrianglesLoop k st bound s p b).outcome = Outcome.returned →
      (∀ it ∈ (InsertTrianglesLoop k st bound s p b).iterations,
        it.state = st ∧ it.strategy = k ∧ it.indexCount = k.GetIndexCount it.vertexCount) ∧
      (((InsertTrianglesLoop k st bound s p b).iterations.map Iteration.vertexCount).sum =
        p.m_vertexCount) ∧
      (∀ (f : VertexArrayBuffer → Nat) (g : Nat → Nat → Nat),
        f (VertexArrayBuffer.create 768 512) = 0 →
        (∀ buf i v, f ((buf.UploadIndexes i).UploadData v) = f buf + g i v) →
        ∀ st', (((InsertTrianglesLoop k st bound s p b).batcher.bucketsOf st').map f).sum =
          ((b.bucketsOf st').map f).sum +
            if st = st' then
              ((InsertTrianglesLoop k st bound s p b).iterations.map
                (fun it => g it.indexCount it.vertexCount)).sum
            else 0) := by
  induction bound with
  | zero =>
    intro s p b ho
    simp only [InsertTrianglesLoop] at ho ⊢
    split_ifs at ho with hd
    refine ⟨by simp, by simp [not_IsDataExists p hd], ?_⟩
    intro f g _ _ st'
    simp
  | succ bound ih =>
    intro s p b
    rw [InsertTrianglesLoop]
    split_ifs with hd
    · split
      · next outcome b' its heq =>
        intro ho
        exact absurd ho (body_stop_outcome k st s p b b' outcome its heq)
      · next s' p' b' it heq =>
        intro ho
        obtain ⟨ih1, ih2, ih3⟩ := ih s' p' b' ho
        obtain ⟨hit, _, hadv, _⟩ := body_next k st s p b s' p' b' it heq
        have hadv' := Advance_some p p' it.vertexCount hadv
        dsimp only
        refine ⟨?_, ?_, ?_⟩
        · intro it' hit'
          rcases List.mem_cons.mp hit' with rfl | hmem
          · rw [hit]
            exact ⟨rfl, rfl, clampCounts_indexCount _ _ _ _⟩
          · exact ih1 it' hmem
        · rw [List.map_cons, List.sum_cons, ih2]
          omega
        · intro f g hf0 hfg st'
          rw [ih3 f g hf0 hfg st', body_next_sum f g hf0 hfg k st s p b s' p' b' it heq st']
          split_ifs <;> simp [Nat.add_assoc]
    · intro _
      refine ⟨by simp, by simp [not_IsDataExists p hd], ?_⟩
      intro f g _ _ st'
      simp

theorem init_wellFormed : Batcher.init.WellFormed := by
  intro st bucket h
  simp [Batcher.init, buckets_t.find] at h

theorem insertAll_wellFormed (calls : List InsertCall) :
    ∀ b : Batcher, b.WellFormed →
      (∀ it ∈ (insertAll calls b).iterations, ∀ x ∈ it.indexes,
        it.startIndexValue ≤ x ∧ x < it.startIndexValue + it.vertexCount) ∧
      ((insertAll calls b).outcome = Outcome.returned → (insertAll calls b).batcher.WellFormed) := by
  induction calls with
  | nil => intro b hb; exact ⟨by simp [insertAll], fun _ => hb⟩
  | cons c cs ih =>
    intro b hb
    obtain ⟨h1, h2⟩ := loop_wellFormed c.strategy c.state c.params.m_vertexCount
      BaseStrategy.init c.params b hb rfl
    rw [insertAll]
    dsimp only
    split
    · next ho =>
      obtain ⟨ih1, ih2⟩ := ih _ (h2 ho)
      dsimp only
      refine ⟨?_, ih2⟩
      intro it hit
      rcases List.mem_append.mp hit with hm | hm
      · exact h1 it hm
      · exact ih1 it hm
    · next ho =>
      exact ⟨h1, fun h => absurd h (by simpa [Batcher.InsertTriangles] using ho)⟩

theorem insertAll_accounting (calls : List InsertCall) (st : GLState) :
    ∀ b : Batcher, (insertAll calls b).outcome = Outcome.returned →
      (∀ it ∈ (insertAll calls b).iterations,
        it.indexCount = it.strategy.GetIndexCount it.vertexCount ∧
        ∃ c ∈ calls, c.strategy = it.strategy) ∧
      ((((insertAll calls b).iterations.filter (fun it => it.state = st)).map
          Iteration.vertexCount).sum =
        ((calls.filter (fun c => c.state = st)).map (fun c => c.params.m_vertexCount)).sum) ∧
      (∀ (f : VertexArrayBuffer → Nat) (g : Nat → Nat → Nat),
        f (VertexArrayBuffer.create 768 512) = 0 →
        (∀ buf i v, f ((buf.UploadIndexes i).UploadData v) = f buf + g i v) →
        (((insertAll calls b).batcher.bucketsOf st).map f).sum =
          ((b.bucketsOf st).map f).sum +
            (((insertAll calls b).iterations.filter (fun it => it.state = st)).map
              (fun it => g it.indexCount it.vertexCount)).sum) := by
  induction calls with
  | nil =>
    intro b _
    simp [insertAll]
  | cons c cs ih =>
    intro b
    rw [insertAll]
    dsimp only
    split
    · next ho =>
      intro hrest
      obtain ⟨ih1, ih2, ih3⟩ := ih _ hrest
      obtain ⟨l1, l2, l3⟩ := loop_accounting c.strategy c.state c.params.m_vertexCount
        BaseStrategy.init c.params b ho
      dsimp only
      have hfilter : ∀ (h : Iteration → Nat),
          (((b.InsertTriangles c.state c.strategy c.params).iterations.filter
            (fun it => it.state = st)).map h).sum =
          if c.state = st then
            ((b.InsertTriangles c.state c.strategy c.params).iterations.map h).sum
          else 0 := by
        intro h
        split_ifs with e
        · rw [List.filter_eq_self.mpr]
          intro it hit
          simp [(l1 it hit).1, e]
        · rw [List.filter_eq_nil_iff.mpr]
          · simp
          · intro it hit
            simp [(l1 it hit).1, e]
      refine ⟨?_, ?_, ?_⟩
      · intro it hit
        rcases List.mem_append.mp hit with hm | hm
        · obtain ⟨_, hk, hic⟩ := l1 it hm
          exact ⟨by rw [hic, hk], c, by simp, hk.symm⟩
        · obtain ⟨hic, c', hc', hk⟩ := ih1 it hm
          exact ⟨hic, c', List.mem_cons_of_mem _ hc', hk⟩
      · rw [List.filter_append, List.map_append, List.sum_append, ih2, hfilter]
        unfold Batcher.InsertTriangles
        rw [l2]
        by_cases e : c.state = st <;> simp [List.filter_cons, e]
      · intro f g hf0 hfg
        rw [ih3 f g hf0 hfg, List.filter_append, List.map_append, List.sum_append, hfilter]
        unfold Batcher.InsertTriangles
        rw [l3 f g hf0 hfg st]
        split_ifs <;> omega
    · next ho =>
      intro h
      exact absurd h ho

/-- A pass over a provider that reports at least one vertex, on a bucket with non-zero
available counts, uploads at least one vertex. -/
theorem clampCounts_pos (k : Strategy) (vertexCount availV availI : Nat)
    (hvc : 0 < vertexCount) (hV : 0 < availV) (hI : 0 < availI) (hI16 : availI < 65536) :
    0 < (clampCounts k vertexCount availV availI).2.1 := by
  simp only [clampCounts]
  split_ifs with h1 h2
  · exact hV
  · cases k
    · simpa [Strategy.GetVertexCount, TrianglesListStrategy.GetVertexCount] using hI
    · simp only [Strategy.GetVertexCount, strip_GetVertexCount_eq availI hI16]
      omega
    · simp only [Strategy.GetVertexCount, fan_GetVertexCount_eq_strip,
        strip_GetVertexCount_eq availI hI16]
      omega
  · exact hvc

theorem body_stop_not_bound (k : Strategy) (st : GLState) (s : BaseStrategy)
    (p : AttributeProvider) (b b' : Batcher) (o : Outcome) (its : List Iteration)
    (h : InsertTrianglesBody k st s p b = BodyResult.stop o b' its) :
    o ≠ Outcome.iterationBound := by
  intro ho
  subst ho
  unfold InsertTrianglesBody at h
  simp only [] at h
  split_ifs at h <;> (try cases h) <;>
    (split at h <;> (try cases h) <;> (try (split at h <;> cases h)))

/-- The iteration bound of the embedding is never what ends a run: with a bound of
at least the vertices the provider holds (a 16-bit count) the loop ends by itself. -/
theorem loop_within_bound (k : Strategy) (st : GLState) (bound : Nat) :
    ∀ (s : BaseStrategy) (p : AttributeProvider) (b : Batcher),
      p.m_vertexCount ≤ bound → p.m_vertexCount < 65536 →
      (InsertTrianglesLoop k st bound s p b).outcome ≠ Outcome.iterationBound := by
  induction bound with
  | zero =>
    intro s p b h0 _
    have : p.IsDataExists = false := by
      simp [AttributeProvider.IsDataExists]; omega
    simp [InsertTrianglesLoop, this]
  | succ bound ih =>
    intro s p b hle h16
    rw [InsertTrianglesLoop]
    split_ifs with hd
    · have hits := body_iterations k st s p b
      split
      · next outcome b' its heq =>
        exact body_stop_not_bound k st s p b b' outcome its heq
      · next s' p' b' it heq =>
        rw [heq] at hits
        obtain ⟨hit, hI, hV⟩ := hits it (by simp [BodyResult.iterations])
        obtain ⟨_, _, hadv, _⟩ := body_next k st s p b s' p' b' it heq
        have hadv' := Advance_some p p' it.vertexCount hadv
        have hpos : 0 < it.vertexCount := by
          rw [hit]
          simp only [iterationAt]
          apply clampCounts_pos
          · simp only [AttributeProvider.IsDataExists, bne_iff_ne, ne_eq] at hd
            simp only [AttributeProvider.GetVertexCount]
            omega
          · omega
          · omega
          · simp only [VertexArrayBuffer.GetAvailableIndexCount]
            omega
        dsimp only
        exact ih s' p' b' (by omega) (by omega)
    · simp

/-! ## The insert loop and sequences of insert calls -/

/-- C1 (counterexample): one `InsertTriangleStrip` call with 174 vertices on a new
batcher returns; all 174 vertices are uploaded (172 to the bucket that is flushed, 2
to the bucket left open), but only 510 indices are, while the strip formula gives
516 indices for 174 vertices. -/
theorem strip_split_loses_indexes :
    (Batcher.init.InsertTriangleStrip 7 { m_vertexCount := 174 }).outcome = Outcome.returned ∧
    (Batcher.init.InsertTriangleStrip 7 { m_vertexCount := 174 }).batcher.uploadedVertexCount 7
      = 174 ∧
    (Batcher.init.InsertTriangleStrip 7 { m_vertexCount := 174 }).batcher.uploadedIndexCount 7
      = 510 ∧
    Strategy.TrianglesStrip.GetIndexCount 174 = 516 := by
  decide

/-- C1 (amended): for every sequence of insert calls that returns, from any batcher and
for every render state, the vertices uploaded over all buckets of the state (flushed
ones and the open one) grow by exactly the vertices submitted for that state; the
indices uploaded grow by the sum, over the loop iterations for that state, of the
topology's index count of the vertices uploaded in the iteration; when every call is
a list insert this is the number of vertices submitted. -/
theorem insert_conserves_counts (calls : List InsertCall) (b : Batcher) (st : GLState)
    (h : (insertAll calls b).outcome = Outcome.returned) :
    (insertAll calls b).batcher.uploadedVertexCount st =
      b.uploadedVertexCount st +
        ((calls.filter (fun c => c.state = st)).map (fun c => c.params.m_vertexCount)).sum ∧
    (insertAll calls b).batcher.uploadedIndexCount st =
      b.uploadedIndexCount st +
        (((insertAll calls b).iterations.filter (fun it => it.state = st)).map
          (fun it => it.strategy.GetIndexCount it.vertexCount)).sum ∧
    ((∀ c ∈ calls, c.strategy = Strategy.TrianglesList) →
      (insertAll calls b).batcher.uploadedIndexCount st =
        b.uploadedIndexCount st +
          ((calls.filter (fun c => c.state = st)).map (fun c => c.params.m_vertexCount)).sum) := by
  obtain ⟨h1, h2, h3⟩ := insertAll_accounting calls st b h
  have hv := h3 VertexArrayBuffer.vertexUploaded (fun _ v => v) rfl (fun _ _ _ => rfl)
  have hi := h3 VertexArrayBuffer.indexUploaded (fun i _ => i) rfl (fun _ _ _ => rfl)
  have hidx : (((insertAll calls b).iterations.filter (fun it => it.state = st)).map
      (fun it => it.indexCount)) =
      (((insertAll calls b).iterations.filter (fun it => it.state = st)).map
        (fun it => it.strategy.GetIndexCount it.vertexCount)) := by
    apply List.map_congr_left
    intro it hit
    exact (h1 it (List.mem_of_mem_filter hit)).1
  refine ⟨?_, ?_, ?_⟩
  · unfold Batcher.uploadedVertexCount
    rw [hv, ← h2]
  · unfold Batcher.uploadedIndexCount
    rw [hi, hidx]
  · intro hlist
    unfold Batcher.uploadedIndexCount
    rw [hi, ← h2]
    congr 2
    apply List.map_congr_left
    intro it hit
    obtain ⟨hic, c, hc, hk⟩ := h1 it (List.mem_of_mem_filter hit)
    rw [hic, ← hk, hlist c hc]
    rfl

/-- C1 (witness): a list insert of 600 vertices followed by a strip insert of 200
vertices for the same state returns, and the vertices uploaded are the 800 submitted. -/
theorem insert_conserves_counts_witness :
    (insertAll [{ strategy := Strategy.TrianglesList, state := 7, params := { m_vertexCount := 600 } },
        { strategy := Strategy.TrianglesStrip, state := 7, params := { m_vertexCount := 200 } }]
      Batcher.init).outcome = Outcome.returned ∧
    (insertAll [{ strategy := Strategy.TrianglesList, state := 7, params := { m_vertexCount := 600 } },
        { strategy := Strategy.TrianglesStrip, state := 7, params := { m_vertexCount := 200 } }]
      Batcher.init).batcher.uploadedVertexCount 7 = 0 + (600 + (200 + 0)) :=
  ⟨by decide, (insert_conserves_counts _ Batcher.init 7 (by decide)).1⟩


set_option maxRecDepth 1000000 in
/-- C2 (failing input): a list insert of 3 vertices, 382 strip inserts of 2 vertices and
a strip insert of 171 vertices, all for one state on a new batcher.  Every call
returns.  The last iteration finds 1 available vertex and 509 available indices and
uploads 171 vertices; the bucket passed to `FlushFullBucket` has received 938
vertices in a capacity of 768. -/
theorem strip_clamp_overfills_bucket :
    (insertAll
      ([{ strategy := Strategy.TrianglesList, state := 7, params := { m_vertexCount := 3 } }] ++
        List.replicate 382
          { strategy := Strategy.TrianglesStrip, state := 7, params := { m_vertexCount := 2 } } ++
        [{ strategy := Strategy.TrianglesStrip, state := 7, params := { m_vertexCount := 171 } }])
      Batcher.init).outcome = Outcome.returned ∧
    (insertAll
      ([{ strategy := Strategy.TrianglesList, state := 7, params := { m_vertexCount := 3 } }] ++
        List.replicate 382
          { strategy := Strategy.TrianglesStrip, state := 7, params := { m_vertexCount := 2 } } ++
        [{ strategy := Strategy.TrianglesStrip, state := 7, params := { m_vertexCount := 171 } }])
      Batcher.init).batcher =
      { m_buckets := [],
        m_flushInterface := [FlushCall.FlushFullBucket 7
          { vertexCapacity := 768, indexCapacity := 512,
            vertexUploaded := 938, indexUploaded := 510 }] } ∧
    ((insertAll
      ([{ strategy := Strategy.TrianglesList, state := 7, params := { m_vertexCount := 3 } }] ++
        List.replicate 382
          { strategy := Strategy.TrianglesStrip, state := 7, params := { m_vertexCount := 2 } } ++
        [{ strategy := Strategy.TrianglesStrip, state := 7, params := { m_vertexCount := 171 } }])
      Batcher.init).iterations.getLast?.map
        (fun it => (it.availableVertexCount, it.availableIndexCount, it.vertexCount,
          it.indexCount))) = some (1, 509, 171, 507) := by
  decide

/-- C3 (failing input): `InsertTriangleList` with one chunk of 512 vertices on a new
batcher returns after one iteration with `vertexCount = 512` and
`needFinalizeBuffer = false`; `FlushFullBucket` is not called and the state keeps
its bucket, which has no index left. -/
theorem list_512_is_not_finalized :
    (Batcher.init.InsertTriangleList 7 { m_vertexCount := 512 }).outcome = Outcome.returned ∧
    (Batcher.init.InsertTriangleList 7 { m_vertexCount := 512 }).iterations.map
      (fun it => (it.availableVertexCount, it.availableIndexCount, it.vertexCount,
        it.needFinalizeBuffer)) = [(768, 512, 512, false)] ∧
    (Batcher.init.InsertTriangleList 7 { m_vertexCount := 512 }).batcher.m_flushInterface = [] ∧
    (Batcher.init.InsertTriangleList 7 { m_vertexCount := 512 }).batcher.m_buckets.find 7 =
      some { vertexCapacity := 768, indexCapacity := 512,
             vertexUploaded := 512, indexUploaded := 512 } ∧
    VertexArrayBuffer.GetAvailableIndexCount
      { vertexCapacity := 768, indexCapacity := 512,
        vertexUploaded := 512, indexUploaded := 512 } = 0 := by
  decide

/-- C4 (failing input): after `InsertTriangleList` with 512 vertices, a second
`InsertTriangleList` with 3 vertices for the same state stops in its first iteration
at `ASSERT(availableIndexCount != 0, ...)`. -/
theorem assert_fails_after_exact_fill :
    (insertAll
      [{ strategy := Strategy.TrianglesList, state := 7, params := { m_vertexCount := 512 } },
       { strategy := Strategy.TrianglesList, state := 7, params := { m_vertexCount := 3 } }]
      Batcher.init).outcome = Outcome.assertAvailableIndexCount := by
  decide

/-- C5: in every loop iteration of every sequence of insert calls on a new batcher,
each generated index lies in `[startIndexValue, startIndexValue + vertexCount)`,
where `vertexCount` is the number of vertices the iteration uploads. -/
theorem generated_indexes_in_uploaded_range (calls : List InsertCall) :
    ∀ it ∈ (insertAll calls Batcher.init).iterations, ∀ x ∈ it.indexes,
      it.startIndexValue ≤ x ∧ x < it.startIndexValue + it.vertexCount :=
  (insertAll_wellFormed calls Batcher.init init_wellFormed).1

/-- C5 (witness): the iteration of a fan insert of 6 vertices that follows a list
insert of 9 vertices starts at index 9, and its generated index 14 lies in
`[9, 9 + 6)`. -/
theorem generated_indexes_in_uploaded_range_witness :
    ({ strategy := Strategy.TrianglesFan, state := 7, requestedVertexCount := 6,
       availableVertexCount := 759, availableIndexCount := 503,
       needFinalizeBuffer := false, vertexCount := 6, indexCount := 12,
       startIndexValue := 9,
       indexes := [9, 10, 11, 9, 11, 12, 9, 12, 13, 9, 13, 14] } : Iteration) ∈
      (insertAll
        [{ strategy := Strategy.TrianglesList, state := 7, params := { m_vertexCount := 9 } },
         { strategy := Strategy.TrianglesFan, state := 7, params := { m_vertexCount := 6 } }]
        Batcher.init).iterations ∧
    (9 ≤ 14 ∧ 14 < 9 + 6) :=
  ⟨by decide,
   generated_indexes_in_uploaded_range
     [{ strategy := Strategy.TrianglesList, state := 7, params := { m_vertexCount := 9 } },
      { strategy := Strategy.TrianglesFan, state := 7, params := { m_vertexCount := 6 } }]
     { strategy := Strategy.TrianglesFan, state := 7, requestedVertexCount := 6,
       availableVertexCount := 759, availableIndexCount := 503,
       needFinalizeBuffer := false, vertexCount := 6, indexCount := 12,
       startIndexValue := 9,
       indexes := [9, 10, 11, 9, 11, 12, 9, 12, 13, 9, 13, 14] }
     (by decide) 14 (by decide)⟩

/-! ## The strategies -/

/-- C6 (counterexample): at the 16-bit vertex count 21848 the strip and fan index
count is 2, not `3 * (21848 - 2)`, and the inverse formula returns 2, not 21848. -/
theorem strip_fan_roundtrip_fails_at_21848 :
    2 ≤ 21848 ∧ 21848 < 65536 ∧
    TrianglesStripStrategy.GetIndexCount 21848 = 2 ∧
    TrianglesStripStrategy.GetIndexCount 21848 ≠ 3 * (21848 - 2) ∧
    TrianglesStripStrategy.GetVertexCount (TrianglesStripStrategy.GetIndexCount 21848) ≠ 21848 ∧
    TrianglesFanStrategy.GetIndexCount 21848 ≠ 3 * (21848 - 2) ∧
    TrianglesFanStrategy.GetVertexCount (TrianglesFanStrategy.GetIndexCount 21848) ≠ 21848 := by
  decide

/-- C6 (amended): for every vertex count `V` with `2 ≤ V ≤ 21847` the strip and the
fan strategy give `GetIndexCount V = 3 * (V - 2)` and
`GetVertexCount (GetIndexCount V) = V`. -/
theorem strip_fan_roundtrip (V : Nat) (h2 : 2 ≤ V) (hV : V ≤ 21847) :
    TrianglesStripStrategy.GetIndexCount V = 3 * (V - 2) ∧
    TrianglesStripStrategy.GetVertexCount (TrianglesStripStrategy.GetIndexCount V) = V ∧
    TrianglesFanStrategy.GetIndexCount V = 3 * (V - 2) ∧
    TrianglesFanStrategy.GetVertexCount (TrianglesFanStrategy.GetIndexCount V) = V := by
  have h1 : TrianglesStripStrategy.GetIndexCount V = 3 * (V - 2) := by
    rw [strip_GetIndexCount_eq V hV, if_pos h2]
  have h3 : TrianglesStripStrategy.GetVertexCount (3 * (V - 2)) = V := by
    rw [strip_GetVertexCount_eq _ (by omega)]
    omega
  refine ⟨h1, ?_, ?_, ?_⟩
  · rw [h1, h3]
  · rw [fan_GetIndexCount_eq_strip, h1]
  · rw [fan_GetIndexCount_eq_strip, fan_GetVertexCount_eq_strip, h1, h3]

/-- C6 (witness): the largest vertex count of the amended law, 21847. -/
theorem strip_fan_roundtrip_witness :
    TrianglesStripStrategy.GetIndexCount 21847 = 3 * (21847 - 2) ∧
    TrianglesStripStrategy.GetVertexCount (TrianglesStripStrategy.GetIndexCount 21847) = 21847 ∧
    TrianglesFanStrategy.GetIndexCount 21847 = 3 * (21847 - 2) ∧
    TrianglesFanStrategy.GetVertexCount (TrianglesFanStrategy.GetIndexCount 21847) = 21847 :=
  strip_fan_roundtrip 21847 (by decide) (by decide)

/-- C7 (failing input): with 1 available vertex and 509 available indices the strip
and the fan clamp choose 171 vertices (507 indices), more than the available vertex
count; for a vertex count of 1 the index count wraps to 65533. -/
theorem clamp_exceeds_available_vertex_count :
    clampCounts Strategy.TrianglesStrip 171 1 509 = (true, 171, 507) ∧
    clampCounts Strategy.TrianglesFan 171 1 509 = (true, 171, 507) ∧
    Strategy.TrianglesStrip.GetIndexCount 1 = 65533 ∧
    ¬ (clampCounts Strategy.TrianglesStrip 171 1 509).2.1 ≤ 1 := by
  decide

/-- When the clamp is taken inside a bucket's capacity, and for strip and fan at
least two vertices are available, the chosen vertex count is the largest that fits
both available counts. -/
theorem clampCounts_largest (k : Strategy) (vertexCount availV availI : Nat)
    (hV : 0 < availV) (hI : 0 < availI) (hcV : availV ≤ 768) (hcI : availI ≤ 512)
    (hk : k = Strategy.TrianglesList ∨ 2 ≤ availV)
    (hclamp : (clampCounts k vertexCount availV availI).1 = true) :
    (clampCounts k vertexCount availV availI).2.1 ≤ availV ∧
    k.GetIndexCount (clampCounts k vertexCount availV availI).2.1 ≤ availI ∧
    ∀ w, w ≤ availV → k.GetIndexCount w ≤ availI →
      w ≤ (clampCounts k vertexCount availV availI).2.1 := by
  have hcond : vertexCount > availV ∨ k.GetIndexCount vertexCount > availI := by
    by_contra hc
    simp only [clampCounts, if_neg hc] at hclamp
    exact absurd hclamp (by simp)
  by_cases hl : k = Strategy.TrianglesList
  · subst hl
    simp only [clampCounts, if_pos hcond]
    simp only [Strategy.GetIndexCount, Strategy.GetVertexCount,
      TrianglesListStrategy.GetIndexCount, TrianglesListStrategy.GetVertexCount]
    split_ifs <;> refine ⟨by omega, by omega, fun w _ _ => by omega⟩
  · have h2 : 2 ≤ availV := hk.resolve_left hl
    have hG : ∀ w, w ≤ 768 → k.GetIndexCount w = if 2 ≤ w then 3 * (w - 2) else 65530 + 3 * w := by
      intro w hw
      cases k
      · exact absurd rfl hl
      · exact strip_GetIndexCount_eq w (by omega)
      · exact strip_GetIndexCount_eq w (by omega)
    have hGV : k.GetVertexCount availI = availI / 3 + 2 := by
      cases k
      · exact absurd rfl hl
      · exact strip_GetVertexCount_eq availI (by omega)
      · exact strip_GetVertexCount_eq availI (by omega)
    have hA := hG availV hcV
    rw [if_pos h2] at hA
    simp only [clampCounts, if_pos hcond]
    by_cases hfit : k.GetIndexCount availV ≤ availI
    · simp only [if_pos hfit]
      exact ⟨le_refl _, hfit, fun w hw _ => hw⟩
    · simp only [if_neg hfit]
      rw [hGV, hG (availI / 3 + 2) (by omega), if_pos (by omega)]
      rw [hA] at hfit
      refine ⟨by omega, by omega, fun w hw hwI => ?_⟩
      rw [hG w (by omega)] at hwI
      split_ifs at hwI <;> omega

/-- C8: the list strategy has `GetIndexCount V = V`; after `SetStartIndex start` on a
new strategy object the `i`-th generated value (from 0, below the 16-bit index count
`n`) is `start + i` in 16-bit arithmetic, which is `start + i` itself whenever that
fits in 16 bits. -/
theorem list_index_law (V start n i : Nat) (hn : n < 65536) (hi : i < n) :
    TrianglesListStrategy.GetIndexCount V = V ∧
    (generate Strategy.TrianglesList n (BaseStrategy.init.SetStartIndex start))[i]? =
      some ((start + i) % 65536) ∧
    (start + i < 65536 →
      (generate Strategy.TrianglesList n (BaseStrategy.init.SetStartIndex start))[i]? =
        some (start + i)) := by
  have h := generate_getElem? Strategy.TrianglesList start n i (by omega) hi
  rw [indexAt_list] at h
  refine ⟨rfl, h, fun hlt => ?_⟩
  rw [h, Nat.mod_eq_of_lt hlt]

/-- C8 (witness): the fifth of six list indices generated from start index 10. -/
theorem list_index_law_witness :
    TrianglesListStrategy.GetIndexCount 6 = 6 ∧
    (generate Strategy.TrianglesList 6 (BaseStrategy.init.SetStartIndex 10))[4]? = some (10 + 4) :=
  ⟨(list_index_law 6 10 6 4 (by decide) (by decide)).1,
   (list_index_law 6 10 6 4 (by decide) (by decide)).2.2 (by decide)⟩


/-- C9: after `SetStartIndex start` on a new fan strategy object the `i`-th generated
value (from 0, below the 16-bit index count `n`) is `start` when `i % 3 = 0` and
`start + i - 2 * (i / 3)` in 16-bit arithmetic otherwise; whenever the values fit in
16 bits the `k`-th generated triple is `(start, start + k + 1, start + k + 2)`. -/
theorem fan_index_law (start n : Nat) (hn : n < 65536) :
    (∀ i, i < n →
      (generate Strategy.TrianglesFan n (BaseStrategy.init.SetStartIndex start))[i]? =
        some (if i % 3 = 0 then start else (start + i - 2 * (i / 3)) % 65536)) ∧
    (∀ i, i < n → start + i - 2 * (i / 3) < 65536 →
      (generate Strategy.TrianglesFan n (BaseStrategy.init.SetStartIndex start))[i]? =
        some (if i % 3 = 0 then start else start + i - 2 * (i / 3))) ∧
    (∀ k, 3 * k + 2 < n → start + k + 2 < 65536 →
      (generate Strategy.TrianglesFan n (BaseStrategy.init.SetStartIndex start))[3 * k]? =
        some start ∧
      (generate Strategy.TrianglesFan n (BaseStrategy.init.SetStartIndex start))[3 * k + 1]? =
        some (start + k + 1) ∧
      (generate Strategy.TrianglesFan n (BaseStrategy.init.SetStartIndex start))[3 * k + 2]? =
        some (start + k + 2)) := by
  have h : ∀ i, i < n →
      (generate Strategy.TrianglesFan n (BaseStrategy.init.SetStartIndex start))[i]? =
        some (if i % 3 = 0 then start else (start + i - 2 * (i / 3)) % 65536) := by
    intro i hi
    rw [generate_getElem? Strategy.TrianglesFan start n i (by omega) hi, indexAt_fan]
  refine ⟨h, ?_, ?_⟩
  · intro i hi hlt
    rw [h i hi, Nat.mod_eq_of_lt hlt]
  · intro k hk hlt
    refine ⟨?_, ?_, ?_⟩
    · rw [h (3 * k) (by omega), if_pos (by omega)]
    · rw [h (3 * k + 1) (by omega), if_neg (by omega)]
      congr 1
      omega
    · rw [h (3 * k + 2) (by omega), if_neg (by omega)]
      congr 1
      omega

/-- C9 (witness): nine fan indices from start index 10; position 4 and the triple
number 1. -/
theorem fan_index_law_witness :
    (generate Strategy.TrianglesFan 9 (BaseStrategy.init.SetStartIndex 10))[4]? =
      some (if 4 % 3 = 0 then 10 else 10 + 4 - 2 * (4 / 3)) ∧
    ((generate Strategy.TrianglesFan 9 (BaseStrategy.init.SetStartIndex 10))[3 * 1]? = some 10 ∧
     (generate Strategy.TrianglesFan 9 (BaseStrategy.init.SetStartIndex 10))[3 * 1 + 1]? =
       some (10 + 1 + 1) ∧
     (generate Strategy.TrianglesFan 9 (BaseStrategy.init.SetStartIndex 10))[3 * 1 + 2]? =
       some (10 + 1 + 2)) :=
  ⟨(fan_index_law 10 9 (by decide)).2.1 4 (by decide) (by decide),
   (fan_index_law 10 9 (by decide)).2.2 1 (by decide) (by decide)⟩

/-- C10: after `SetStartIndex start` on a new strip strategy object the `i`-th
generated value (from 0, below the 16-bit index count `n`) is
`start + i - 2 * (i / 3)` in 16-bit arithmetic; whenever the values fit in 16 bits the
`k`-th generated triple is `(start + k, start + k + 1, start + k + 2)`. -/
theorem strip_index_law (start n : Nat) (hn : n < 65536) :
    (∀ i, i < n →
      (generate Strategy.TrianglesStrip n (BaseStrategy.init.SetStartIndex start))[i]? =
        some ((start + i - 2 * (i / 3)) % 65536)) ∧
    (∀ i, i < n → start + i - 2 * (i / 3) < 65536 →
      (generate Strategy.TrianglesStrip n (BaseStrategy.init.SetStartIndex start))[i]? =
        some (start + i - 2 * (i / 3))) ∧
    (∀ k, 3 * k + 2 < n → start + k + 2 < 65536 →
      (generate Strategy.TrianglesStrip n (BaseStrategy.init.SetStartIndex start))[3 * k]? =
        some (start + k) ∧
      (generate Strategy.TrianglesStrip n (BaseStrategy.init.SetStartIndex start))[3 * k + 1]? =
        some (start + k + 1) ∧
      (generate Strategy.TrianglesStrip n (BaseStrategy.init.SetStartIndex start))[3 * k + 2]? =
        some (start + k + 2)) := by
  have h : ∀ i, i < n →
      (generate Strategy.TrianglesStrip n (BaseStrategy.init.SetStartIndex start))[i]? =
        some ((start + i - 2 * (i / 3)) % 65536) := by
    intro i hi
    rw [generate_getElem? Strategy.TrianglesStrip start n i (by omega) hi, indexAt_strip]
  refine ⟨h, ?_, ?_⟩
  · intro i hi hlt
    rw [h i hi, Nat.mod_eq_of_lt hlt]
  · intro k hk hlt
    refine ⟨?_, ?_, ?_⟩
    · rw [h (3 * k) (by omega)]
      congr 1
      omega
    · rw [h (3 * k + 1) (by omega)]
      congr 1
      omega
    · rw [h (3 * k + 2) (by omega)]
      congr 1
      omega

/-- C10 (witness): nine strip indices from start index 10; position 4 and the triple
number 1. -/
theorem strip_index_law_witness :
    (generate Strategy.TrianglesStrip 9 (BaseStrategy.init.SetStartIndex 10))[4]? =
      some (10 + 4 - 2 * (4 / 3)) ∧
    ((generate Strategy.TrianglesStrip 9 (BaseStrategy.init.SetStartIndex 10))[3 * 1]? =
       some (10 + 1) ∧
     (generate Strategy.TrianglesStrip 9 (BaseStrategy.init.SetStartIndex 10))[3 * 1 + 1]? =
       some (10 + 1 + 1) ∧
     (generate Strategy.TrianglesStrip 9 (BaseStrategy.init.SetStartIndex 10))[3 * 1 + 2]? =
       some (10 + 1 + 2)) :=
  ⟨(strip_index_law 10 9 (by decide)).2.1 4 (by decide) (by decide),
   (strip_index_law 10 9 (by decide)).2.2 1 (by decide) (by decide)⟩

/-! ## The bucket map as a `std::map`: one entry per key -/

theorem buckets_t.find_eq_none_of_lt (m : buckets_t) (st : GLState)
    (h : ∀ k ∈ m.map Prod.fst, st < k) : buckets_t.find m st = none ∧ buckets_t.count m st = 0 := by
  induction m with
  | nil => simp [buckets_t.find, buckets_t.count]
  | cons hd tl ih =>
    obtain ⟨a, w⟩ := hd
    have ha : st < a := h a (by simp)
    have ih' := ih (fun k hk => h k (by simp only [List.map_cons, List.mem_cons]; exact Or.inr hk))
    have hne : ¬ a = st := fun e => absurd (e ▸ ha) (lt_irrefl _)
    simp only [buckets_t.find, buckets_t.count, if_neg hne] at ih' ⊢
    refine ⟨ih'.1, ?_⟩
    rw [List.filter_cons_of_neg (by simpa using hne)]
    exact ih'.2

/-- In an ordered map a state has one entry when `find` succeeds and none otherwise. -/
theorem buckets_t.count_of_ordered (m : buckets_t) (h : m.Ordered) (st : GLState) :
    buckets_t.count m st = if (buckets_t.find m st).isSome then 1 else 0 := by
  induction m with
  | nil => simp [buckets_t.find, buckets_t.count]
  | cons hd tl ih =>
    obtain ⟨a, w⟩ := hd
    simp only [buckets_t.Ordered, List.map_cons, List.pairwise_cons] at h
    obtain ⟨h1, h2⟩ := h
    by_cases e : a = st
    · subst e
      obtain ⟨_, hc⟩ := buckets_t.find_eq_none_of_lt tl a h1
      simp only [buckets_t.count] at hc ⊢
      simp [buckets_t.find, hc]
    · have := ih h2
      simp only [buckets_t.count] at this ⊢
      simp [buckets_t.find, e, this]

theorem buckets_t.store_keys (m : buckets_t) (st : GLState) (v : VertexArrayBuffer) :
    ∀ k, k ∈ (buckets_t.store m st v).map Prod.fst ↔ k = st ∨ k ∈ m.map Prod.fst := by
  induction m with
  | nil => intro k; simp [buckets_t.store]
  | cons hd tl ih =>
    obtain ⟨a, w⟩ := hd
    intro k
    simp only [buckets_t.store]
    split_ifs with h1 h2
    · simp
    · subst h2; simp
    · simp only [List.map_cons, List.mem_cons, ih k]
      tauto

theorem buckets_t.store_ordered (m : buckets_t) (h : m.Ordered) (st : GLState)
    (v : VertexArrayBuffer) : (buckets_t.store m st v).Ordered := by
  induction m with
  | nil => simp [buckets_t.store, buckets_t.Ordered]
  | cons hd tl ih =>
    obtain ⟨a, w⟩ := hd
    simp only [buckets_t.Ordered, List.map_cons, List.pairwise_cons] at h
    obtain ⟨h1, h2⟩ := h
    simp only [buckets_t.store]
    split_ifs with e1 e2
    · simp only [buckets_t.Ordered, List.map_cons, List.pairwise_cons, List.mem_cons]
      refine ⟨?_, h1, h2⟩
      intro k hk
      rcases hk with rfl | hk
      · exact e1
      · exact lt_trans e1 (h1 k hk)
    · subst e2
      simp only [buckets_t.Ordered, List.map_cons, List.pairwise_cons]
      exact ⟨h1, h2⟩
    · simp only [buckets_t.Ordered, List.map_cons, List.pairwise_cons]
      refine ⟨?_, ih h2⟩
      intro k hk
      rcases (buckets_t.store_keys tl st v k).mp hk with rfl | hk
      · exact lt_of_le_of_ne (not_lt.mp e1) e2
      · exact h1 k hk

theorem buckets_t.erase_keys (m : buckets_t) (st : GLState) :
    ∀ k, k ∈ (buckets_t.erase m st).map Prod.fst → k ∈ m.map Prod.fst := by
  induction m with
  | nil => intro k; simp [buckets_t.erase]
  | cons hd tl ih =>
    obtain ⟨a, w⟩ := hd
    intro k
    simp only [buckets_t.erase]
    split_ifs with h1
    · intro hk
      simp only [List.map_cons, List.mem_cons]
      exact Or.inr (ih k hk)
    · simp only [List.map_cons, List.mem_cons]
      rintro (rfl | hk)
      · exact Or.inl rfl
      · exact Or.inr (ih k hk)

theorem buckets_t.erase_ordered (m : buckets_t) (h : m.Ordered) (st : GLState) :
    (buckets_t.erase m st).Ordered := by
  induction m with
  | nil => simp [buckets_t.erase, buckets_t.Ordered]
  | cons hd tl ih =>
    obtain ⟨a, w⟩ := hd
    simp only [buckets_t.Ordered, List.map_cons, List.pairwise_cons] at h
    obtain ⟨h1, h2⟩ := h
    simp only [buckets_t.erase]
    split_ifs with e1
    · exact ih h2
    · simp only [buckets_t.Ordered, List.map_cons, List.pairwise_cons]
      exact ⟨fun k hk => h1 k (buckets_t.erase_keys tl st k hk), ih h2⟩

theorem GetBuffer_ordered (b : Batcher) (st : GLState) (h : b.m_buckets.Ordered) :
    (b.GetBuffer st).2.m_buckets.Ordered := by
  unfold Batcher.GetBuffer
  split
  · exact h
  · exact buckets_t.store_ordered _ h _ _

theorem uploadedAt_ordered (k : Strategy) (st : GLState) (p : AttributeProvider) (b : Batcher)
    (h : b.m_buckets.Ordered) : (uploadedAt k st p b).m_buckets.Ordered := by
  simp only [uploadedAt]
  exact buckets_t.store_ordered _ (GetBuffer_ordered b st h) _ _

theorem FinalizeBuffer_ordered (b b' : Batcher) (st : GLState) (h : b.m_buckets.Ordered)
    (hf : b.FinalizeBuffer st = some b') : b'.m_buckets.Ordered := by
  unfold Batcher.FinalizeBuffer at hf
  split at hf
  · cases hf
  · cases hf
    exact buckets_t.erase_ordered _ h _

/-- The batcher a pass leaves behind: the one `GetBuffer` returned, the one after the
uploads, or that one finalized. -/
theorem body_batcher (k : Strategy) (st : GLState) (s : BaseStrategy)
    (p : AttributeProvider) (b : Batcher) :
    (InsertTrianglesBody k st s p b).batcher = (b.GetBuffer st).2 ∨
    (InsertTrianglesBody k st s p b).batcher = uploadedAt k st p b ∨
    (uploadedAt k st p b).FinalizeBuffer st = some (InsertTrianglesBody k st s p b).batcher := by
  unfold InsertTrianglesBody
  simp only []
  split_ifs with hI hV hN
  · exact Or.inl rfl
  · exact Or.inl rfl
  · split
    · exact Or.inr (Or.inl rfl)
    · split
      · exact Or.inr (Or.inl rfl)
      · next b'' hfin => exact Or.inr (Or.inr hfin)
  · split
    · exact Or.inr (Or.inl rfl)
    · exact Or.inr (Or.inl rfl)

theorem body_ordered (k : Strategy) (st : GLState) (s : BaseStrategy)
    (p : AttributeProvider) (b : Batcher) (h : b.m_buckets.Ordered) :
    (InsertTrianglesBody k st s p b).batcher.m_buckets.Ordered := by
  rcases body_batcher k st s p b with e | e | e
  · rw [e]; exact GetBuffer_ordered b st h
  · rw [e]; exact uploadedAt_ordered k st p b h
  · exact FinalizeBuffer_ordered _ _ st (uploadedAt_ordered k st p b h) e

theorem loop_ordered (k : Strategy) (st : GLState) (bound : Nat) :
    ∀ (s : BaseStrategy) (p : AttributeProvider) (b : Batcher), b.m_buckets.Ordered →
      (InsertTrianglesLoop k st bound s p b).batcher.m_buckets.Ordered := by
  induction bound with
  | zero => intro s p b h; simpa [InsertTrianglesLoop] using h
  | succ bound ih =>
    intro s p b h
    rw [InsertTrianglesLoop]
    split_ifs with hd
    · have hb := body_ordered k st s p b h
      split
      · next outcome b' its heq =>
        rw [heq] at hb
        exact hb
      · next s' p' b' it heq =>
        rw [heq] at hb
        exact ih s' p' b' hb
    · exact h

/-- Insert calls keep the bucket map ordered, one entry per state, whatever their
outcome; `RequestIncompleteBuckets` does not touch the map. -/
theorem insertAll_ordered (calls : List InsertCall) :
    ∀ b : Batcher, b.m_buckets.Ordered → (insertAll calls b).batcher.m_buckets.Ordered := by
  induction calls with
  | nil => intro b h; exact h
  | cons c cs ih =>
    intro b h
    have h1 := loop_ordered c.strategy c.state c.params.m_vertexCount BaseStrategy.init c.params b h
    rw [insertAll]
    dsimp only
    split
    · exact ih _ h1
    · exact h1

theorem init_ordered : Batcher.init.m_buckets.Ordered := by
  simp [Batcher.init, buckets_t.Ordered]

example : (Batcher.init.InsertTriangleList 7 { m_vertexCount := 400 }).batcher.m_buckets.Ordered := by
  unfold buckets_t.Ordered
  decide

theorem useIncompleteCount_append (xs ys : List FlushCall) (st : GLState) :
    useIncompleteCount (xs ++ ys) st = useIncompleteCount xs st + useIncompleteCount ys st := by
  simp [useIncompleteCount, List.filter_append]

theorem useIncompleteCount_map (m : buckets_t) (st : GLState) :
    useIncompleteCount (m.map (fun e => FlushCall.UseIncompleteBucket e.1 e.2)) st =
      buckets_t.count m st := by
  induction m with
  | nil => simp [useIncompleteCount, buckets_t.count]
  | cons hd tl ih =>
    simp only [useIncompleteCount, buckets_t.count] at ih ⊢
    by_cases e : hd.1 = st
    · simp [List.filter_cons, e, ih]
    · simp [List.filter_cons, e, ih]

theorem buckets_t.mem_of_find (m : buckets_t) (st : GLState) (buf : VertexArrayBuffer)
    (h : buckets_t.find m st = some buf) : (st, buf) ∈ m := by
  induction m with
  | nil => simp [buckets_t.find] at h
  | cons hd tl ih =>
    obtain ⟨a, w⟩ := hd
    simp only [buckets_t.find] at h
    split_ifs at h with e
    · cases h
      subst e
      simp
    · exact List.mem_cons_of_mem _ (ih h)

/-- C11: on a batcher whose bucket map is a `std::map` (ordered keys, one entry per
state), `RequestIncompleteBuckets` leaves the map unchanged, calls
`UseIncompleteBucket` once for every state with an open bucket (passing that bucket)
and for no other state, calls `FlushFullBucket` for none, and a following `GetBuffer`
for a state with an open bucket returns that bucket without registering a new one. -/
theorem request_incomplete_buckets (b : Batcher) (h : b.m_buckets.Ordered) :
    b.RequestIncompleteBuckets.m_buckets = b.m_buckets ∧
    (∀ st, useIncompleteCount b.RequestIncompleteBuckets.m_flushInterface st =
      useIncompleteCount b.m_flushInterface st +
        if (b.m_buckets.find st).isSome then 1 else 0) ∧
    (∀ st bucket, b.m_buckets.find st = some bucket →
      FlushCall.UseIncompleteBucket st bucket ∈ b.RequestIncompleteBuckets.m_flushInterface) ∧
    (∀ st, b.RequestIncompleteBuckets.flushedBuckets st = b.flushedBuckets st) ∧
    (∀ st bucket, b.m_buckets.find st = some bucket →
      b.RequestIncompleteBuckets.GetBuffer st = (bucket, b.RequestIncompleteBuckets)) := by
  refine ⟨rfl, ?_, ?_, ?_, ?_⟩
  · intro st
    simp only [Batcher.RequestIncompleteBuckets, useIncompleteCount_append,
      useIncompleteCount_map, buckets_t.count_of_ordered _ h st]
  · intro st bucket hf
    simp only [Batcher.RequestIncompleteBuckets, List.mem_append, List.mem_map]
    exact Or.inr ⟨(st, bucket), buckets_t.mem_of_find _ _ _ hf, rfl⟩
  · intro st
    simp only [Batcher.RequestIncompleteBuckets, Batcher.flushedBuckets, List.filterMap_append,
      List.filterMap_map]
    have : List.filterMap
        ((fun c => match c with
          | FlushCall.FlushFullBucket st' bucket => if st' = st then some bucket else none
          | FlushCall.UseIncompleteBucket _ _ => none) ∘
          fun e : GLState × VertexArrayBuffer => FlushCall.UseIncompleteBucket e.1 e.2)
        b.m_buckets = [] := by
      rw [List.filterMap_eq_nil_iff]
      intro e _
      rfl
    rw [this, List.append_nil]
  · intro st bucket hf
    have hf' : b.RequestIncompleteBuckets.m_buckets.find st = some bucket := hf
    unfold Batcher.GetBuffer
    rw [hf']

/-- C11 (witness): after `InsertTriangleList` with 400 vertices for state 7,
`RequestIncompleteBuckets` reports state 7 once, and a following insert of 10 more
list vertices continues on the same bucket: it then holds 410 vertices, and nothing
was flushed as full. -/
theorem request_incomplete_buckets_witness :
    (Batcher.init.InsertTriangleList 7 { m_vertexCount := 400 }).batcher.m_buckets.Ordered ∧
    useIncompleteCount
      (Batcher.init.InsertTriangleList 7
        { m_vertexCount := 400 }).batcher.RequestIncompleteBuckets.m_flushInterface 7 =
      useIncompleteCount
        (Batcher.init.InsertTriangleList 7 { m_vertexCount := 400 }).batcher.m_flushInterface 7 +
        (if ((Batcher.init.InsertTriangleList 7
          { m_vertexCount := 400 }).batcher.m_buckets.find 7).isSome then 1 else 0) ∧
    ((Batcher.init.InsertTriangleList 7
        { m_vertexCount := 400 }).batcher.RequestIncompleteBuckets.InsertTriangleList 7
        { m_vertexCount := 10 }).batcher =
      { m_buckets := [(7, { vertexCapacity := 768, indexCapacity := 512,
                            vertexUploaded := 410, indexUploaded := 410 })],
        m_flushInterface := [FlushCall.UseIncompleteBucket 7
          { vertexCapacity := 768, indexCapacity := 512,
            vertexUploaded := 400, indexUploaded := 400 }] } :=
  ⟨by unfold buckets_t.Ordered; decide,
   (request_incomplete_buckets _ (by unfold buckets_t.Ordered; decide)).2.1 7,
   by decide⟩

/-- C12: `FinalizeBuffer state` succeeds exactly when the map holds a bucket for
`state`; then that bucket is passed to `FlushFullBucket` in one call appended to the
calls of the flush sink, the state has no bucket afterwards, and the buckets of all
other states are as before. -/
theorem finalize_buffer (b : Batcher) (st : GLState) :
    ((b.FinalizeBuffer st).isSome ↔ (b.m_buckets.find st).isSome) ∧
    (∀ bucket, b.m_buckets.find st = some bucket →
      ∃ b', b.FinalizeBuffer st = some b' ∧
        b'.m_flushInterface = b.m_flushInterface ++ [FlushCall.FlushFullBucket st bucket] ∧
        b'.m_buckets.find st = none ∧
        ∀ st', st' ≠ st → b'.m_buckets.find st' = b.m_buckets.find st') := by
  constructor
  · unfold Batcher.FinalizeBuffer
    split <;> simp_all
  · intro bucket hf
    refine ⟨{ m_buckets := b.m_buckets.erase st,
              m_flushInterface := b.m_flushInterface ++ [FlushCall.FlushFullBucket st bucket] },
      by simp only [Batcher.FinalizeBuffer, hf], rfl, ?_, ?_⟩
    · simp [buckets_t.find_erase]
    · intro st' hne
      have : ¬ st = st' := fun e => hne e.symm
      simp [buckets_t.find_erase, this]

/-- C12 (witness): finalizing state 7 of a batcher that holds buckets for 7 and 9. -/
theorem finalize_buffer_witness :
    ∃ b', Batcher.FinalizeBuffer
        { m_buckets := [(7, VertexArrayBuffer.create 768 512), (9, VertexArrayBuffer.create 768 512)],
          m_flushInterface := [] } 7 = some b' ∧
      b'.m_flushInterface = [] ++ [FlushCall.FlushFullBucket 7 (VertexArrayBuffer.create 768 512)] ∧
      b'.m_buckets.find 7 = none ∧
      ∀ st', st' ≠ 7 → b'.m_buckets.find st' =
        buckets_t.find [(7, VertexArrayBuffer.create 768 512), (9, VertexArrayBuffer.create 768 512)] st' :=
  (finalize_buffer
    { m_buckets := [(7, VertexArrayBuffer.create 768 512), (9, VertexArrayBuffer.create 768 512)],
      m_flushInterface := [] } 7).2 (VertexArrayBuffer.create 768 512) (by decide)

theorem loop_length_le (k : Strategy) (st : GLState) (bound : Nat) :
    ∀ (s : BaseStrategy) (p : AttributeProvider) (b : Batcher),
      (InsertTrianglesLoop k st bound s p b).iterations.length ≤ bound := by
  induction bound with
  | zero => intro s p b; simp [InsertTrianglesLoop]
  | succ bound ih =>
    intro s p b
    rw [InsertTrianglesLoop]
    split_ifs with hd
    · split
      · next outcome b' its heq =>
        have hits := body_iterations k st s p b
        rw [heq] at hits
        simp only [BodyResult.iterations] at hits
        dsimp only
        rcases its with _ | ⟨it, _ | ⟨it', rest⟩⟩
        · simp
        · simp
        · exfalso
          unfold InsertTrianglesBody at heq
          simp only [] at heq
          split_ifs at heq <;> (try cases heq) <;>
            (split at heq <;> (try cases heq) <;> (try (split at heq <;> cases heq)))
      · next s' p' b' it heq =>
        have := ih s' p' b'
        simp only [List.length_cons]
        omega
    · simp

/-- A property of the record `iterationAt` that holds whenever the available counts
are non-zero holds of every iteration of the loop. -/
theorem loop_iterations_forall (k : Strategy) (st : GLState) (Q : Iteration → Prop)
    (hQ : ∀ (s : BaseStrategy) (p : AttributeProvider) (b : Batcher),
      (b.GetBuffer st).1.GetAvailableIndexCount ≠ 0 →
      (b.GetBuffer st).1.GetAvailableVertexCount ≠ 0 → Q (iterationAt k st s p b))
    (bound : Nat) :
    ∀ (s : BaseStrategy) (p : AttributeProvider) (b : Batcher),
      ∀ it ∈ (InsertTrianglesLoop k st bound s p b).iterations, Q it := by
  induction bound with
  | zero => intro s p b it hit; simp [InsertTrianglesLoop] at hit
  | succ bound ih =>
    intro s p b it hit
    rw [InsertTrianglesLoop] at hit
    split_ifs at hit with hd
    · have hits := body_iterations k st s p b
      split at hit
      · next outcome b' its heq =>
        rw [heq] at hits
        obtain ⟨rfl, hI, hV⟩ := hits it hit
        exact hQ s p b hI hV
      · next s' p' b' it' heq =>
        rw [heq] at hits
        rcases List.mem_cons.mp hit with rfl | hmem
        · obtain ⟨rfl, hI, hV⟩ := hits it (by simp [BodyResult.iterations])
          exact hQ s p b hI hV
        · exact ih s' p' b' it hmem
    · simp at hit

/-- Inside a bucket's capacity the clamp does not raise the vertex count: for the list
topology always, for strip and fan when at least two vertices are reported and at
least two are available. -/
theorem clampCounts_le_requested (k : Strategy) (vertexCount availV availI : Nat)
    (hV : 0 < availV) (hI : 0 < availI) (hcV : availV ≤ 768) (hcI : availI ≤ 512)
    (hk : k = Strategy.TrianglesList ∨ (2 ≤ vertexCount ∧ 2 ≤ availV)) :
    (clampCounts k vertexCount availV availI).2.1 ≤ vertexCount := by
  by_cases hclamp : (clampCounts k vertexCount availV availI).1 = true
  · have hcond : vertexCount > availV ∨ k.GetIndexCount vertexCount > availI := by
      by_contra hc
      simp only [clampCounts, if_neg hc] at hclamp
      exact absurd hclamp (by simp)
    by_cases hl : k = Strategy.TrianglesList
    · subst hl
      simp only [clampCounts, if_pos hcond]
      simp only [Strategy.GetIndexCount, Strategy.GetVertexCount,
        TrianglesListStrategy.GetIndexCount, TrianglesListStrategy.GetVertexCount] at hcond ⊢
      split_ifs <;> omega
    · obtain ⟨h2, h2'⟩ := hk.resolve_left hl
      have hG : ∀ w, w ≤ 21847 →
          k.GetIndexCount w = if 2 ≤ w then 3 * (w - 2) else 65530 + 3 * w := by
        intro w hw
        cases k
        · exact absurd rfl hl
        · exact strip_GetIndexCount_eq w hw
        · exact strip_GetIndexCount_eq w hw
      have hGV : k.GetVertexCount availI = availI / 3 + 2 := by
        cases k
        · exact absurd rfl hl
        · exact strip_GetVertexCount_eq availI (by omega)
        · exact strip_GetVertexCount_eq availI (by omega)
      have hA := hG availV (by omega)
      rw [if_pos h2'] at hA
      simp only [clampCounts, if_pos hcond]
      by_cases hfit : k.GetIndexCount availV ≤ availI
      · simp only [if_pos hfit]
        rcases hcond with hc | hc
        · omega
        · by_cases hbig : vertexCount ≤ 21847
          · rw [hG vertexCount hbig, if_pos h2] at hc
            rw [hA] at hfit
            omega
          · omega
      · simp only [if_neg hfit]
        rw [hGV]
        rw [hA] at hfit
        rcases hcond with hc | hc
        · omega
        · by_cases hbig : vertexCount ≤ 21847
          · rw [hG vertexCount hbig, if_pos h2] at hc
            omega
          · omega
  · have hcond : ¬ (vertexCount > availV ∨ k.GetIndexCount vertexCount > availI) := by
      intro hc
      simp only [clampCounts, if_pos hc] at hclamp
      exact hclamp trivial
    simp only [clampCounts, if_neg hcond]
    exact le_refl _

theorem buckets_t.store_length_of_find_none (m : buckets_t) (st : GLState)
    (v : VertexArrayBuffer) (h : buckets_t.find m st = none) :
    (buckets_t.store m st v).length = m.length + 1 := by
  induction m with
  | nil => simp [buckets_t.store]
  | cons hd tl ih =>
    obtain ⟨a, w⟩ := hd
    simp only [buckets_t.find] at h
    split_ifs at h with e
    simp only [buckets_t.store]
    split_ifs with e1
    · simp
    · simp [ih h]

/-- C13: `GetBuffer state` returns the bucket of `state` and leaves the batcher as it
is when the map has one; otherwise it returns a new bucket of 768 vertices and 512
indices, registered as the one additional entry of the map, under `state`, with all
other states as before.  A second `GetBuffer` for the same state returns the same
bucket and changes nothing, and a map with one entry per state stays so. -/
theorem get_buffer (b : Batcher) (st : GLState) :
    (∀ bucket, b.m_buckets.find st = some bucket → b.GetBuffer st = (bucket, b)) ∧
    (b.m_buckets.find st = none →
      (b.GetBuffer st).1 = VertexArrayBuffer.create 768 512 ∧
      (b.GetBuffer st).1.GetAvailableVertexCount = 768 ∧
      (b.GetBuffer st).1.GetAvailableIndexCount = 512 ∧
      (b.GetBuffer st).2.m_buckets.find st = some (b.GetBuffer st).1 ∧
      (b.GetBuffer st).2.m_buckets.length = b.m_buckets.length + 1 ∧
      (∀ st', st' ≠ st → (b.GetBuffer st).2.m_buckets.find st' = b.m_buckets.find st') ∧
      (b.GetBuffer st).2.m_flushInterface = b.m_flushInterface) ∧
    ((b.GetBuffer st).2.GetBuffer st = ((b.GetBuffer st).1, (b.GetBuffer st).2)) ∧
    (b.m_buckets.Ordered →
      (b.GetBuffer st).2.m_buckets.Ordered ∧
      ∀ st', buckets_t.count (b.GetBuffer st).2.m_buckets st' ≤ 1) := by
  refine ⟨?_, ?_, ?_, ?_⟩
  · intro bucket hf
    simp only [Batcher.GetBuffer, hf]
  · intro hf
    have e : b.GetBuffer st = (VertexArrayBuffer.create 768 512,
        { b with m_buckets := b.m_buckets.store st (VertexArrayBuffer.create 768 512) }) := by
      simp only [Batcher.GetBuffer, hf]
    refine ⟨by rw [e], by rw [e]; rfl, by rw [e]; rfl, GetBuffer_find b st, ?_, ?_,
      GetBuffer_flushInterface b st⟩
    · rw [e]
      exact buckets_t.store_length_of_find_none _ _ _ hf
    · intro st' hne
      exact GetBuffer_find_other b st st' (fun e' => hne e'.symm)
  · have hf := GetBuffer_find b st
    generalize b.GetBuffer st = r at hf
    simp only [Batcher.GetBuffer, hf]
  · intro hord
    have h1 := GetBuffer_ordered b st hord
    refine ⟨h1, fun st' => ?_⟩
    rw [buckets_t.count_of_ordered _ h1 st']
    split_ifs <;> omega

/-- C13 (witness): `GetBuffer 7` on a new batcher registers a bucket of 768 vertices and
512 indices as the only entry. -/
theorem get_buffer_witness :
    (Batcher.init.GetBuffer 7).1 = VertexArrayBuffer.create 768 512 ∧
    (Batcher.init.GetBuffer 7).1.GetAvailableVertexCount = 768 ∧
    (Batcher.init.GetBuffer 7).1.GetAvailableIndexCount = 512 ∧
    (Batcher.init.GetBuffer 7).2.m_buckets.find 7 = some (Batcher.init.GetBuffer 7).1 ∧
    (Batcher.init.GetBuffer 7).2.m_buckets.length = Batcher.init.m_buckets.length + 1 ∧
    (∀ st', st' ≠ 7 →
      (Batcher.init.GetBuffer 7).2.m_buckets.find st' = Batcher.init.m_buckets.find st') ∧
    (Batcher.init.GetBuffer 7).2.m_flushInterface = Batcher.init.m_flushInterface :=
  (get_buffer Batcher.init 7).2.1 (by decide)

set_option maxRecDepth 100000 in
/-- C18 (failing input): one `InsertTriangleStrip` call with 173 vertices on a new
batcher.  The first iteration uploads 172 of the 173 reported vertices and finalizes
the bucket; the second iteration is told 1 vertex by the provider and uploads 172,
and `Advance` is asked to consume 172 vertices of a provider that holds 1. -/
theorem strip_remainder_is_raised :
    (Batcher.init.InsertTriangleStrip 7 { m_vertexCount := 173 }).iterations.map
      (fun it => (it.requestedVertexCount, it.availableVertexCount, it.availableIndexCount,
        it.vertexCount, it.indexCount)) =
      [(173, 768, 512, 172, 510), (1, 768, 512, 172, 510)] ∧
    (Batcher.init.InsertTriangleStrip 7 { m_vertexCount := 173 }).outcome =
      Outcome.advanceBeyondData ∧
    Strategy.TrianglesStrip.GetIndexCount 1 = 65533 := by
  decide

/-- C19: a pass of the loop body whose provider reports at least one vertex, on a bucket
whose available counts are non-zero 16-bit values, uploads and advances by at least
one vertex, for each topology; so does every iteration of `InsertTriangles`; and for a
provider that holds a 16-bit number of vertices `InsertTriangles` ends by itself,
after at most as many iterations as the provider holds vertices, for every iteration
bound of at least that many. -/
theorem insert_loop_terminates (k : Strategy) :
    (∀ vertexCount availV availI, 0 < vertexCount → 0 < availV → 0 < availI →
      availI < 65536 → 0 < (clampCounts k vertexCount availV availI).2.1) ∧
    (∀ (st : GLState) (p : AttributeProvider) (b : Batcher),
      ∀ it ∈ (b.InsertTriangles st k p).iterations,
        0 < it.requestedVertexCount → 0 < it.vertexCount) ∧
    (∀ (st : GLState) (p : AttributeProvider) (b : Batcher), p.m_vertexCount < 65536 →
      (b.InsertTriangles st k p).outcome ≠ Outcome.iterationBound ∧
      (b.InsertTriangles st k p).iterations.length ≤ p.m_vertexCount ∧
      ∀ bound s, p.m_vertexCount ≤ bound →
        (InsertTrianglesLoop k st bound s p b).outcome ≠ Outcome.iterationBound) := by
  refine ⟨fun vc availV availI h1 h2 h3 h4 => clampCounts_pos k vc availV availI h1 h2 h3 h4,
    ?_, ?_⟩
  · intro st p b
    apply loop_iterations_forall k st
      (fun it => 0 < it.requestedVertexCount → 0 < it.vertexCount)
    intro s p' b' hI hV hreq
    simp only [iterationAt] at hreq ⊢
    apply clampCounts_pos k _ _ _ hreq (by omega) (by omega)
    simp only [VertexArrayBuffer.GetAvailableIndexCount]
    omega
  · intro st p b h16
    refine ⟨loop_within_bound k st _ _ p b (le_refl _) h16, ?_,
      fun bound s hb => loop_within_bound k st bound s p b hb h16⟩
    exact loop_length_le k st p.m_vertexCount BaseStrategy.init p b

/-- C19 (witness): a strip pass that is told 1 vertex on a new bucket uploads at least
one vertex, and a strip insert of 1000 vertices on a new batcher ends by itself. -/
theorem insert_loop_terminates_witness :
    0 < (clampCounts Strategy.TrianglesStrip 1 768 512).2.1 ∧
    (Batcher.init.InsertTriangles 7 Strategy.TrianglesStrip
      { m_vertexCount := 1000 }).outcome ≠ Outcome.iterationBound :=
  ⟨(insert_loop_terminates Strategy.TrianglesStrip).1 1 768 512
     (by decide) (by decide) (by decide) (by decide),
   ((insert_loop_terminates Strategy.TrianglesStrip).2.2 7 { m_vertexCount := 1000 }
     Batcher.init (by decide)).1⟩

/-! ## The GPU program manager -/

open GpuProgramManager

theorem lookup_cons_eq {β : Type} (k k' : Int) (v : β) (m : List (Int × β)) :
    List.lookup k ((k', v) :: m) = if k = k' then some v else List.lookup k m := by
  rw [List.lookup_cons]
  by_cases h : k = k'
  · simp [h]
  · have : (k == k') = false := by simpa using h
    simp [h, this]

theorem lookup_mem {β : Type} (k : Int) (v : β) (m : List (Int × β))
    (h : List.lookup k m = some v) : (k, v) ∈ m := by
  induction m with
  | nil => simp at h
  | cons hd tl ih =>
    obtain ⟨a, w⟩ := hd
    rw [lookup_cons_eq] at h
    split_ifs at h with e
    · cases h; subst e; simp
    · exact List.mem_cons_of_mem _ (ih h)

theorem GetShaders_eq (index : Int) :
    ShaderMapper.GetShaders index =
      if index = 1 then
        some { VertexShaderIndex := 1, FragmentShaderIndex := 2,
               VertexShaderSource := SimpleVertexShader,
               FragmentShaderSource := SimpleFragmentShader }
      else none := by
  simp only [ShaderMapper.GetShaders, ShaderMapper.m_mapping, lookup_cons_eq, List.lookup_nil]

theorem shadersCreated_append (m m' : GpuProgramManager) (c : Created) (index : Int)
    (h : m'.m_created = m.m_created ++ [c]) :
    m'.shadersCreated index =
      m.shadersCreated index +
        (match c with
          | Created.shader i _ _ => if i = index then 1 else 0
          | Created.program _ => 0) := by
  simp only [GpuProgramManager.shadersCreated, h, List.filter_append, List.length_append]
  cases c with
  | shader i src t =>
    by_cases e : i = index
    · simp [List.filter_cons, e]
    · simp [List.filter_cons, e]
  | program i => simp [List.filter_cons]

/-- A cached index: `GetShader` returns the cached object and changes nothing. -/
theorem GetShader_cached (m : GpuProgramManager) (index : Int) (source : String)
    (t : ShaderType) (r : ShaderReference) (h : m.m_shaders.lookup index = some r) :
    m.GetShader index source t = (r.address, m) := by
  simp only [GpuProgramManager.GetShader, h]

/-- After `GetShader` the index is cached, and the result points to the cached object;
what was cached before is cached unchanged. -/
theorem GetShader_lookup (m : GpuProgramManager) (index : Int) (source : String)
    (t : ShaderType) :
    (∃ r, (m.GetShader index source t).2.m_shaders.lookup index = some r ∧
      r.address = (m.GetShader index source t).1) ∧
    (∀ i r, m.m_shaders.lookup i = some r →
      (m.GetShader index source t).2.m_shaders.lookup i = some r) ∧
    (m.GetShader index source t).2.m_programs = m.m_programs := by
  unfold GpuProgramManager.GetShader
  split
  · next r h => exact ⟨⟨r, h, rfl⟩, fun i r' h' => h', rfl⟩
  · next h =>
    refine ⟨⟨_, by simp only [lookup_cons_eq, if_true], rfl⟩, ?_, rfl⟩
    intro i r' h'
    have hne : ¬ i = index := fun e => by rw [e, h] at h'; cases h'
    simp only [lookup_cons_eq, if_neg hne, h']

theorem GetShader_consistent (m : GpuProgramManager) (index : Int) (source : String)
    (t : ShaderType) (h : m.Consistent) : (m.GetShader index source t).2.Consistent := by
  obtain ⟨h1, h2, h3⟩ := h
  have hl := GetShader_lookup m index source t
  refine ⟨?_, ?_, ?_⟩
  · unfold GpuProgramManager.GetShader
    split
    · exact h1
    · intro e he
      rcases List.mem_cons.mp he with rfl | he
      · rfl
      · exact h1 e he
  · intro i
    unfold GpuProgramManager.GetShader
    split
    · exact h2 i
    · next hnone =>
      dsimp only
      rw [shadersCreated_append m _ _ i rfl, h2 i, lookup_cons_eq]
      by_cases e : i = index
      · subst e
        simp [hnone]
      · have e' : ¬ index = i := fun x => e x.symm
        rw [if_neg e]
        simp [e']
  · intro i p hp
    rw [hl.2.2] at hp
    obtain ⟨shaders, v, f, hs, hv, hf, hpv, hpf⟩ := h3 i p hp
    exact ⟨shaders, v, f, hs, hl.2.1 _ _ hv, hl.2.1 _ _ hf, hpv, hpf⟩


theorem GetProgram_cached (m : GpuProgramManager) (index : Int) (p : GpuProgram)
    (h : m.m_programs.lookup index = some p) : m.GetProgram index = (some p.address, m) := by
  simp only [GpuProgramManager.GetProgram, h]

theorem GetProgram_unknown (m : GpuProgramManager) (index : Int)
    (h : m.m_programs.lookup index = none) (hs : ShaderMapper.GetShaders index = none) :
    m.GetProgram index = (none, m) := by
  simp only [GpuProgramManager.GetProgram, h, hs]

/-- A program that is not cached but has an entry in the table: what `GetProgram` does. -/
theorem GetProgram_new (m : GpuProgramManager) (index : Int) (shaders : ShadersInfo)
    (h : m.m_programs.lookup index = none) (hs : ShaderMapper.GetShaders index = some shaders) :
    ∃ m2 p, m.GetProgram index = (some p.address, m2) ∧
      m2.m_programs = (index, p) :: m.m_programs ∧
      m2.m_shaders =
        ((m.GetShader shaders.VertexShaderIndex shaders.VertexShaderSource
            ShaderType.VertexShader).2.GetShader shaders.FragmentShaderIndex
          shaders.FragmentShaderSource ShaderType.FragmentShader).2.m_shaders ∧
      m2.m_created =
        ((m.GetShader shaders.VertexShaderIndex shaders.VertexShaderSource
            ShaderType.VertexShader).2.GetShader shaders.FragmentShaderIndex
          shaders.FragmentShaderSource ShaderType.FragmentShader).2.m_created ++
          [Created.program index] ∧
      p.m_vertexShader =
        (m.GetShader shaders.VertexShaderIndex shaders.VertexShaderSource
          ShaderType.VertexShader).1 ∧
      p.m_fragmentShader =
        ((m.GetShader shaders.VertexShaderIndex shaders.VertexShaderSource
            ShaderType.VertexShader).2.GetShader shaders.FragmentShaderIndex
          shaders.FragmentShaderSource ShaderType.FragmentShader).1 := by
  simp only [GpuProgramManager.GetProgram, h, hs]
  refine ⟨_,
    { address :=
        ((m.GetShader shaders.VertexShaderIndex shaders.VertexShaderSource
            ShaderType.VertexShader).2.GetShader shaders.FragmentShaderIndex
          shaders.FragmentShaderSource ShaderType.FragmentShader).2.m_created.length,
      m_vertexShader :=
        (m.GetShader shaders.VertexShaderIndex shaders.VertexShaderSource
          ShaderType.VertexShader).1,
      m_fragmentShader :=
        ((m.GetShader shaders.VertexShaderIndex shaders.VertexShaderSource
            ShaderType.VertexShader).2.GetShader shaders.FragmentShaderIndex
          shaders.FragmentShaderSource ShaderType.FragmentShader).1 },
    rfl, ?_, rfl, rfl, rfl, rfl⟩
  simp only [(GetShader_lookup _ _ _ _).2.2]

theorem GetProgram_consistent (m : GpuProgramManager) (index : Int) (h : m.Consistent) :
    (m.GetProgram index).2.Consistent := by
  cases hp : m.m_programs.lookup index with
  | some p => rw [GetProgram_cached m index p hp]; exact h
  | none =>
    cases hs : ShaderMapper.GetShaders index with
    | none => rw [GetProgram_unknown m index hp hs]; exact h
    | some shaders =>
      obtain ⟨m2, p, e, e1, e2, e3, e4, e5⟩ := GetProgram_new m index shaders hp hs
      rw [e]
      have hc1 := GetShader_consistent m shaders.VertexShaderIndex shaders.VertexShaderSource
        ShaderType.VertexShader h
      have hc2 := GetShader_consistent _ shaders.FragmentShaderIndex shaders.FragmentShaderSource
        ShaderType.FragmentShader hc1
      have hl1 := GetShader_lookup m shaders.VertexShaderIndex shaders.VertexShaderSource
        ShaderType.VertexShader
      have hl2 := GetShader_lookup
        (m.GetShader shaders.VertexShaderIndex shaders.VertexShaderSource
          ShaderType.VertexShader).2 shaders.FragmentShaderIndex shaders.FragmentShaderSource
        ShaderType.FragmentShader
      obtain ⟨c1, c2, c3⟩ := hc2
      refine ⟨?_, ?_, ?_⟩
      · dsimp only
        rw [e2]
        exact c1
      · intro i
        rw [shadersCreated_append _ m2 (Created.program index) i e3]
        dsimp only
        rw [e2, c2 i]
        rfl
      · intro i q hq
        dsimp only at hq ⊢
        rw [e1, lookup_cons_eq] at hq
        rw [e2]
        split_ifs at hq with ei
        · cases hq
          subst ei
          obtain ⟨v, hv, hva⟩ := hl1.1
          obtain ⟨f, hf, hfa⟩ := hl2.1
          exact ⟨shaders, v, f, hs, hl2.2.1 _ _ hv, hf, by rw [e4, hva], by rw [e5, hfa]⟩
        · have hq' : (m.GetShader shaders.VertexShaderIndex shaders.VertexShaderSource
              ShaderType.VertexShader).2.m_programs.lookup i = some q := by
            rw [hl1.2.2]; exact hq
          have hq2 : ((m.GetShader shaders.VertexShaderIndex shaders.VertexShaderSource
              ShaderType.VertexShader).2.GetShader shaders.FragmentShaderIndex
              shaders.FragmentShaderSource ShaderType.FragmentShader).2.m_programs.lookup i =
              some q := by
            rw [hl2.2.2]; exact hq'
          exact c3 i q hq2

theorem init_consistent : GpuProgramManager.init.Consistent := by
  refine ⟨?_, ?_, ?_⟩
  · intro e he
    simp [GpuProgramManager.init] at he
  · intro i
    simp [GpuProgramManager.init, GpuProgramManager.shadersCreated]
  · intro i p hp
    simp [GpuProgramManager.init] at hp

theorem callAll_consistent (calls : List ManagerCall) :
    ∀ m : GpuProgramManager, m.Consistent → (callAll calls m).Consistent := by
  induction calls with
  | nil => intro m h; exact h
  | cons c cs ih =>
    intro m h
    cases c with
    | GetShader index source t =>
      rw [callAll]
      exact ih _ (GetShader_consistent m index source t h)
    | GetProgram index =>
      have hc := GetProgram_consistent m index h
      rw [callAll]
      split
      · next a m' heq =>
        rw [heq] at hc
        exact ih _ hc
      · next m' heq =>
        rw [heq] at hc
        exact hc

/-- After `GetProgram 1` program 1 is cached and the result points to it. -/
theorem GetProgram_one (m : GpuProgramManager) :
    ∃ p, (m.GetProgram 1).1 = some p.address ∧ (m.GetProgram 1).2.m_programs.lookup 1 = some p := by
  cases hp : m.m_programs.lookup 1 with
  | some p =>
    rw [GetProgram_cached m 1 p hp]
    exact ⟨p, rfl, hp⟩
  | none =>
    have hs := GetShaders_eq 1
    rw [if_pos rfl] at hs
    obtain ⟨m2, p, e, e1, _⟩ := GetProgram_new m 1 _ hp hs
    rw [e]
    refine ⟨p, rfl, ?_⟩
    dsimp only
    rw [e1, lookup_cons_eq, if_pos rfl]

/-- In a consistent manager with program 1 cached, the program points to the cached
shaders 1 and 2, each of which was made once. -/
theorem consistent_program_one (m : GpuProgramManager) (h : m.Consistent) (p : GpuProgram)
    (hp : m.m_programs.lookup 1 = some p) :
    ∃ v f, m.m_shaders.lookup 1 = some v ∧ m.m_shaders.lookup 2 = some f ∧
      p.m_vertexShader = v.address ∧ p.m_fragmentShader = f.address ∧
      m.shadersCreated 1 = 1 ∧ m.shadersCreated 2 = 1 := by
  obtain ⟨_, h2, h3⟩ := h
  obtain ⟨shaders, v, f, hs, hv, hf, hpv, hpf⟩ := h3 1 p hp
  rw [GetShaders_eq, if_pos rfl] at hs
  cases hs
  dsimp only at hv hf
  refine ⟨v, f, hv, hf, hpv, hpf, ?_, ?_⟩
  · rw [h2 1, hv]; rfl
  · rw [h2 2, hf]; rfl

theorem programsCreated_append (m m' : GpuProgramManager) (c : Created) (index : Int)
    (h : m'.m_created = m.m_created ++ [c]) :
    m'.programsCreated index =
      m.programsCreated index +
        (match c with
          | Created.shader _ _ _ => 0
          | Created.program i => if i = index then 1 else 0) := by
  simp only [GpuProgramManager.programsCreated, h, List.filter_append, List.length_append]
  cases c with
  | shader i src t => simp [List.filter_cons]
  | program i =>
    by_cases e : i = index
    · simp [List.filter_cons, e]
    · simp [List.filter_cons, e]

theorem GetShader_programsCreated (m : GpuProgramManager) (index : Int) (source : String)
    (t : ShaderType) (i : Int) :
    (m.GetShader index source t).2.programsCreated i = m.programsCreated i := by
  unfold GpuProgramManager.GetShader
  split
  · rfl
  · dsimp only
    rw [programsCreated_append m _ _ i rfl]
    rfl

/-- One `GpuProgram` object has been made for every cached program and none for any
other index; `GetProgram` keeps it so. -/
theorem GetProgram_programsCreated (m : GpuProgramManager) (index : Int)
    (h : ∀ i, m.programsCreated i = if (m.m_programs.lookup i).isSome then 1 else 0) :
    ∀ i, (m.GetProgram index).2.programsCreated i =
      if ((m.GetProgram index).2.m_programs.lookup i).isSome then 1 else 0 := by
  intro i
  cases hp : m.m_programs.lookup index with
  | some p => rw [GetProgram_cached m index p hp]; exact h i
  | none =>
    cases hs : ShaderMapper.GetShaders index with
    | none => rw [GetProgram_unknown m index hp hs]; exact h i
    | some shaders =>
      obtain ⟨m2, p, e, e1, _, e3, _, _⟩ := GetProgram_new m index shaders hp hs
      rw [e]
      dsimp only
      rw [programsCreated_append _ m2 (Created.program index) i e3,
        GetShader_programsCreated, GetShader_programsCreated, h i, e1, lookup_cons_eq]
      by_cases ei : i = index
      · subst ei
        simp [hp]
      · have ei' : ¬ index = i := fun x => ei x.symm
        rw [if_neg ei]
        simp [ei']

theorem callAll_programsCreated (calls : List ManagerCall) :
    ∀ m : GpuProgramManager,
      (∀ i, m.programsCreated i = if (m.m_programs.lookup i).isSome then 1 else 0) →
      ∀ i, (callAll calls m).programsCreated i =
        if ((callAll calls m).m_programs.lookup i).isSome then 1 else 0 := by
  induction calls with
  | nil => intro m h; exact h
  | cons c cs ih =>
    intro m h
    cases c with
    | GetShader index source t =>
      rw [callAll]
      apply ih
      intro i
      rw [GetShader_programsCreated, (GetShader_lookup m index source t).2.2]
      exact h i
    | GetProgram index =>
      have hc := GetProgram_programsCreated m index h
      rw [callAll]
      split
      · next a m' heq =>
        rw [heq] at hc
        exact ih _ hc
      · next m' heq =>
        rw [heq] at hc
        exact hc

/-- C14: on every manager reached from a new one, `GetProgram 1` returns the handle of
the program that the program cache holds for 1 afterwards, a program that points to
the cached shaders 1 and 2; a second `GetProgram 1` returns the same handle and
leaves the manager (program cache, shader cache and the objects made) as the first
call left it; after the two calls exactly one program object has been made for
program 1 and exactly one shader object for each of the shaders 1 and 2.  On a new
manager the first call makes the two shaders and the program, at the addresses 0, 1
and 2, and returns 2. -/
theorem get_program_twice (calls : List ManagerCall) :
    (∃ p v f,
      ((callAll calls GpuProgramManager.init).GetProgram 1).1 = some p.address ∧
      ((callAll calls GpuProgramManager.init).GetProgram 1).2.m_programs.lookup 1 = some p ∧
      ((callAll calls GpuProgramManager.init).GetProgram 1).2.m_shaders.lookup 1 = some v ∧
      ((callAll calls GpuProgramManager.init).GetProgram 1).2.m_shaders.lookup 2 = some f ∧
      p.m_vertexShader = v.address ∧ p.m_fragmentShader = f.address ∧
      ((callAll calls GpuProgramManager.init).GetProgram 1).2.GetProgram 1 =
        (some p.address, ((callAll calls GpuProgramManager.init).GetProgram 1).2)) ∧
    (((callAll calls GpuProgramManager.init).GetProgram 1).2.GetProgram 1).2.m_programs =
      ((callAll calls GpuProgramManager.init).GetProgram 1).2.m_programs ∧
    (((callAll calls GpuProgramManager.init).GetProgram 1).2.GetProgram 1).2.m_shaders =
      ((callAll calls GpuProgramManager.init).GetProgram 1).2.m_shaders ∧
    (((callAll calls GpuProgramManager.init).GetProgram 1).2.GetProgram 1).2.programsCreated 1
      = 1 ∧
    (((callAll calls GpuProgramManager.init).GetProgram 1).2.GetProgram 1).2.shadersCreated 1
      = 1 ∧
    (((callAll calls GpuProgramManager.init).GetProgram 1).2.GetProgram 1).2.shadersCreated 2
      = 1 ∧
    GpuProgramManager.init.GetProgram 1 =
      (some 2,
        { m_programs := [(1, { address := 2, m_vertexShader := 0, m_fragmentShader := 1 })],
          m_shaders :=
            [(2, { address := 1, m_source := SimpleFragmentShader,
                   m_type := ShaderType.FragmentShader, m_refCount := 1 }),
             (1, { address := 0, m_source := SimpleVertexShader,
                   m_type := ShaderType.VertexShader, m_refCount := 1 })],
          m_created :=
            [Created.shader 1 SimpleVertexShader ShaderType.VertexShader,
             Created.shader 2 SimpleFragmentShader ShaderType.FragmentShader,
             Created.program 1] }) := by
  have hc := GetProgram_consistent _ 1 (callAll_consistent calls _ init_consistent)
  have hn := GetProgram_programsCreated _ 1
    (callAll_programsCreated calls GpuProgramManager.init
      (fun i => by simp [GpuProgramManager.init, GpuProgramManager.programsCreated]))
  obtain ⟨p, h1, h2⟩ := GetProgram_one (callAll calls GpuProgramManager.init)
  have h3 := GetProgram_cached _ 1 p h2
  obtain ⟨v, f, hv, hf, hpv, hpf, c1, c2⟩ := consistent_program_one _ hc p h2
  refine ⟨⟨p, v, f, h1, h2, hv, hf, hpv, hpf, h3⟩, by rw [h3], by rw [h3], ?_, ?_, ?_, rfl⟩
  · rw [h3, hn 1, h2]
    rfl
  · rw [h3]; exact c1
  · rw [h3]; exact c2

/-- C15: on every manager reached from a new one by `GetShader` and `GetProgram`
calls, at most one shader object has been made per shader index, every cached shader
has the reference count 1, the `Deref` of the destructor brings every cached shader
to the count 0, and `GetShader` for a cached index returns the cached object and
leaves the manager unchanged, whatever source and type are passed. -/
theorem shader_created_once (calls : List ManagerCall) :
    (∀ index, (callAll calls GpuProgramManager.init).shadersCreated index ≤ 1) ∧
    (∀ e ∈ (callAll calls GpuProgramManager.init).m_shaders, e.2.m_refCount = 1) ∧
    (∀ r ∈ (callAll calls GpuProgramManager.init).destroy, r.m_refCount = 0) ∧
    (∀ index source t r,
      (callAll calls GpuProgramManager.init).m_shaders.lookup index = some r →
      (callAll calls GpuProgramManager.init).GetShader index source t =
        (r.address, callAll calls GpuProgramManager.init)) := by
  obtain ⟨h1, h2, _⟩ := callAll_consistent calls _ init_consistent
  refine ⟨?_, h1, ?_, ?_⟩
  · intro index
    rw [h2 index]
    split_ifs <;> omega
  · intro r hr
    simp only [GpuProgramManager.destroy, List.mem_map] at hr
    obtain ⟨e, he, rfl⟩ := hr
    simp [ShaderReference.Deref, h1 e he]
  · intro index source t r hr
    exact GetShader_cached _ index source t r hr

/-- C15 (witness): after `GetShader 2` with a vertex source, `GetProgram 1` and
`GetShader 1` with another source and type, shader 1 is cached with the count 1, and
`GetShader 1` with any source returns it and changes nothing. -/
theorem shader_created_once_witness :
    (callAll [ManagerCall.GetShader 2 "a" ShaderType.VertexShader, ManagerCall.GetProgram 1,
        ManagerCall.GetShader 1 "b" ShaderType.FragmentShader]
      GpuProgramManager.init).shadersCreated 1 ≤ 1 ∧
    (callAll [ManagerCall.GetShader 2 "a" ShaderType.VertexShader, ManagerCall.GetProgram 1,
        ManagerCall.GetShader 1 "b" ShaderType.FragmentShader]
      GpuProgramManager.init).GetShader 1 "c" ShaderType.FragmentShader =
      (({ address := 1, m_source := SimpleVertexShader, m_type := ShaderType.VertexShader,
          m_refCount := 1 } : ShaderReference).address,
        callAll [ManagerCall.GetShader 2 "a" ShaderType.VertexShader, ManagerCall.GetProgram 1,
          ManagerCall.GetShader 1 "b" ShaderType.FragmentShader]
        GpuProgramManager.init) :=
  ⟨(shader_created_once _).1 1,
   (shader_created_once _).2.2.2 1 "c" ShaderType.FragmentShader
     { address := 1, m_source := SimpleVertexShader, m_type := ShaderType.VertexShader,
       m_refCount := 1 } (by rfl)⟩

/-- C16: on every manager reached from a new one, `GetProgram index` fails at the
`ASSERT` exactly when the shader table has no entry for `index`, which is so exactly
when `index` is not 1; a failing call leaves the manager as it was; and
`GetProgram 1` returns a cached program that points to the cached shader 1 as its
vertex shader and to the cached shader 2 as its fragment shader. -/
theorem get_program_unknown (calls : List ManagerCall) (index : Int) :
    (((callAll calls GpuProgramManager.init).GetProgram index).1 = none ↔
      ShaderMapper.GetShaders index = none) ∧
    (ShaderMapper.GetShaders index = none ↔ index ≠ 1) ∧
    (((callAll calls GpuProgramManager.init).GetProgram index).1 = none →
      ((callAll calls GpuProgramManager.init).GetProgram index).2 =
        callAll calls GpuProgramManager.init) ∧
    (∃ p v f,
      ((callAll calls GpuProgramManager.init).GetProgram 1).1 = some p.address ∧
      ((callAll calls GpuProgramManager.init).GetProgram 1).2.m_programs.lookup 1 = some p ∧
      ((callAll calls GpuProgramManager.init).GetProgram 1).2.m_shaders.lookup 1 = some v ∧
      ((callAll calls GpuProgramManager.init).GetProgram 1).2.m_shaders.lookup 2 = some f ∧
      p.m_vertexShader = v.address ∧ p.m_fragmentShader = f.address) := by
  have hc := callAll_consistent calls _ init_consistent
  have hfail : ((callAll calls GpuProgramManager.init).GetProgram index).1 = none →
      (callAll calls GpuProgramManager.init).m_programs.lookup index = none ∧
      ShaderMapper.GetShaders index = none := by
    intro h
    cases hp : (callAll calls GpuProgramManager.init).m_programs.lookup index with
    | some p => rw [GetProgram_cached _ index p hp] at h; cases h
    | none =>
      cases hs : ShaderMapper.GetShaders index with
      | none => exact ⟨rfl, rfl⟩
      | some shaders =>
        obtain ⟨m2, p, e, _⟩ := GetProgram_new _ index shaders hp hs
        rw [e] at h
        cases h
  refine ⟨⟨fun h => (hfail h).2, ?_⟩, ?_, ?_, ?_⟩
  · intro hs
    cases hp : (callAll calls GpuProgramManager.init).m_programs.lookup index with
    | some p =>
      obtain ⟨shaders, _, _, hs', _⟩ := hc.2.2 index p hp
      rw [hs] at hs'
      cases hs'
    | none => rw [GetProgram_unknown _ index hp hs]
  · rw [GetShaders_eq]
    split_ifs with e <;> simp [e]
  · intro h
    obtain ⟨hp, hs⟩ := hfail h
    rw [GetProgram_unknown _ index hp hs]
  · obtain ⟨p, h1, h2⟩ := GetProgram_one (callAll calls GpuProgramManager.init)
    obtain ⟨v, f, hv, hf, hpv, hpf, _, _⟩ :=
      consistent_program_one _ (GetProgram_consistent _ 1 hc) p h2
    exact ⟨p, v, f, h1, h2, hv, hf, hpv, hpf⟩

/-- C16 (witness): `GetProgram 5` on a new manager fails and leaves it as it was. -/
theorem get_program_unknown_witness :
    ((callAll [] GpuProgramManager.init).GetProgram 5).1 = none ∧
    ((callAll [] GpuProgramManager.init).GetProgram 5).2 = callAll [] GpuProgramManager.init :=
  ⟨by decide, (get_program_unknown [] 5).2.2.1 (by decide)⟩

end Drape

namespace viator

/-! ## The order of Viator products -/

/-- C17 (failing input): for the products `a` (rating 5, 10 reviews, price 1) and `b`
(rating 3, 10 reviews, price 2) `operator<` holds both ways, `a < b` and `b < a`,
although `a` is not smaller than `b` in the order by rating, then reviews, then price:
the third disjunct of `operator<` does not ask for equal ratings. -/
theorem operator_lt_not_lexicographic :
    operator_lt { m_rating := 5, m_reviewCount := 10, m_price := 1 }
      { m_rating := 3, m_reviewCount := 10, m_price := 2 } = true ∧
    operator_lt { m_rating := 3, m_reviewCount := 10, m_price := 2 }
      { m_rating := 5, m_reviewCount := 10, m_price := 1 } = true ∧
    ¬ lexLess { m_rating := 5, m_reviewCount := 10, m_price := 1 }
      { m_rating := 3, m_reviewCount := 10, m_price := 2 } := by
  refine ⟨by decide, by decide, ?_⟩
  simp [lexLess]

/-- For products of equal rating `operator<` is the order by reviews, then price. -/
theorem operator_lt_of_equal_rating (a b : Product) (h : a.m_rating = b.m_rating) :
    operator_lt a b = true ↔ lexLess a b := by
  simp only [operator_lt, lexLess, h, lt_self_iff_false, decide_False, Bool.false_or,
    decide_True, Bool.true_and, Bool.or_eq_true, decide_eq_true_eq, Bool.and_eq_true,
    false_or, true_and]

end viator
